import Mathlib

/-!
Verification of the OpenAPI-to-tool transformation pipeline of the hdx-mcp
server (`src/hdx_mcp_server/server.py` and `src/hdx_mcp_server/tools/hdx_tools.py`).

JSON documents are modelled by the inductive type `Json`; Python dicts become
insertion-ordered association lists (`List (String × Json)`), which matches
Python's dict semantics (unique keys, insertion order, in-place assignment
keeps the position of an existing key and appends a fresh one).

The Python schema resolver `resolve_refs_recursively(obj, depth)` recurses with
`depth + 1` and bails out when `depth > 10`.  We embed it as a structurally
recursive function on the remaining fuel `11 - depth`, so the guard
`depth > 10` becomes `fuel = 0` and each recursive call `depth + 1` becomes
`fuel - 1`; the wrapper `resolveRefsRecursively` restores the source signature.
-/

namespace HdxMcp

/-- JSON values: null, booleans, numbers, strings, arrays and objects.
Numbers are modelled as integers (the pipeline only manipulates integral
defaults); objects are insertion-ordered association lists as in Python. -/
inductive Json where
  | null : Json
  | bool (b : Bool) : Json
  | num (n : Int) : Json
  | str (s : String) : Json
  | arr (items : List Json) : Json
  | obj (entries : List (String × Json)) : Json
deriving Repr

/-- Python dict lookup `d.get(k)` / `k in d`: first entry with the given key. -/
def lookupStr (k : String) : List (String × Json) → Option Json
  | [] => none
  | (k', v) :: rest => if k' = k then some v else lookupStr k rest

/-- Python dict assignment `d[k] = v`: overwrite in place if the key exists
(keeping its position), append otherwise. -/
def objSet : List (String × Json) → String → Json → List (String × Json)
  | [], k, v => [(k, v)]
  | (k', v') :: rest, k, v =>
    if k' = k then (k', v) :: rest else (k', v') :: objSet rest k v

/-- Python `del d[k]`: drop the entry with the given key (keys are unique in
a Python dict, so dropping the first occurrence models it). -/
def objDel : List (String × Json) → String → List (String × Json)
  | [], _ => []
  | (k', v') :: rest, k => if k' = k then rest else (k', v') :: objDel rest k

/-- Item assignment `j[k] = v` on a JSON value.  Python raises `TypeError`
when `j` is not a dict; the embedding leaves such values unchanged (none of
the statements below depend on that case). -/
def jsonSet (j : Json) (k : String) (v : Json) : Json :=
  match j with
  | .obj kvs => .obj (objSet kvs k v)
  | _ => j

/-- Python truthiness of a JSON value (`if x:`): empty containers, empty
strings, zero, `False` and `None` are falsy. -/
def jsonTruthy : Json → Bool
  | .null => false
  | .bool b => b
  | .num n => n != 0
  | .str s => !s.data.isEmpty
  | .arr items => !items.isEmpty
  | .obj kvs => !kvs.isEmpty

/-- Keys of an association list are pairwise distinct (the invariant every
Python dict maintains). -/
def keysNodup : List (String × Json) → Bool
  | [] => true
  | (k, _) :: rest => !(rest.any (fun kv => kv.1 == k)) && keysNodup rest

/-- Boolean substring test on character lists (Python `sub in s`). -/
def listIsInfixOf (pat : List Char) : List Char → Bool
  | [] => pat.isEmpty
  | c :: cs => pat.isPrefixOf (c :: cs) || listIsInfixOf pat cs

/-- Python substring containment `sub in s` for strings. -/
def strContains (s sub : String) : Bool := listIsInfixOf sub.data s.data

theorem listIsInfixOf_iff (pat : List Char) (l : List Char) :
    listIsInfixOf pat l = true ↔ pat <:+: l := by
  induction l with
  | nil => simp [listIsInfixOf, List.isEmpty_iff]
  | cons c cs ih =>
    simp [listIsInfixOf, List.infix_cons_iff, ih, List.isPrefixOf_iff_prefix]

theorem strContains_append_left {s g : String} (t : String)
    (h : strContains s g = true) : strContains (s ++ t) g = true := by
  rw [strContains, listIsInfixOf_iff] at *
  rw [String.data_append]
  exact h.trans (List.IsPrefix.isInfix (List.prefix_append s.data t.data))

theorem strContains_append_self (s g : String) : strContains (s ++ g) g = true := by
  rw [strContains, listIsInfixOf_iff, String.data_append]
  exact List.IsSuffix.isInfix (List.suffix_append s.data g.data)

/-! ### Association-list lemmas -/

theorem lookupStr_objSet_self (l : List (String × Json)) (k : String) (v : Json) :
    lookupStr k (objSet l k v) = some v := by
  induction l with
  | nil => simp [objSet, lookupStr]
  | cons kv rest ih =>
    obtain ⟨k', v'⟩ := kv
    by_cases h : k' = k <;> simp [objSet, lookupStr, h, ih]

theorem lookupStr_objSet_other (l : List (String × Json)) {k k' : String} (v : Json)
    (hne : k' ≠ k) : lookupStr k' (objSet l k v) = lookupStr k' l := by
  have hne' : k ≠ k' := Ne.symm hne
  induction l with
  | nil => simp [objSet, lookupStr, hne']
  | cons kv rest ih =>
    obtain ⟨k₁, v₁⟩ := kv
    by_cases h : k₁ = k
    · subst h
      simp [objSet, lookupStr, hne']
    · simp [objSet, lookupStr, h, ih]

theorem lookupStr_map_snd (l : List (String × Json)) (k : String) (f : Json → Json) :
    lookupStr k (l.map (fun kv => (kv.1, f kv.2))) = (lookupStr k l).map f := by
  induction l with
  | nil => simp [lookupStr]
  | cons kv rest ih =>
    by_cases h : kv.1 = k <;> simp [lookupStr, h, ih]

/-! ### The schema resolver (`server.py`, `_fix_openapi_schema_references`) -/

/-- Python `s.replace(pat, rep)` on character lists: replace every
non-overlapping occurrence left to right.  The fuel argument (instantiated
with the length of the scanned list, which bounds the number of steps) makes
the recursion structural. -/
def replaceAllGo (pat rep : List Char) : Nat → List Char → List Char
  | _, [] => []
  | 0, s => s
  | fuel + 1, c :: cs =>
    if pat.isPrefixOf (c :: cs) && !pat.isEmpty then
      rep ++ replaceAllGo pat rep fuel ((c :: cs).drop pat.length)
    else
      c :: replaceAllGo pat rep fuel cs

/-- Python `s.replace(pat, rep)` for strings. -/
def replaceAll (s pat rep : String) : String :=
  String.mk (replaceAllGo pat.data rep.data s.data.length s.data)

/-- `resolve_ref(ref_path)` from `_fix_openapi_schema_references`: a
`#/components/schemas/<name>` path is looked up in the schema table (a deep
copy in Python, the value itself here); anything else, or a missing name,
yields the empty dict `{}`. -/
def resolveRef (schemas : List (String × Json)) (refPath : String) : Json :=
  if "#/components/schemas/".data.isPrefixOf refPath.data then
    let schemaName := replaceAll refPath "#/components/schemas/" ""
    match lookupStr schemaName schemas with
    | some s => s
    | none => .obj []
  else .obj []

/-- The sibling-key merge performed at each reference substitution:
`inline_schema = deepcopy(resolved_schema)` followed by
`for key, value in obj.items(): if key != "$ref": inline_schema[key] = value`.
Python raises `TypeError` when the resolved target is not a dict and a
sibling key is assigned; the embedding leaves non-dict targets unchanged. -/
def mergeSiblings (resolved : Json) (kvs : List (String × Json)) : Json :=
  kvs.foldl (fun acc kv => if kv.1 = "$ref" then acc else jsonSet acc kv.1 kv.2) resolved

/-- The `elif` chain of `resolve_refs_recursively` for a dict without a
`$ref` key selects the first of `anyOf`, `oneOf`, `allOf` whose value is a
list (`elif "anyOf" in obj and isinstance(obj["anyOf"], list): ...`). -/
def firstCompositeList (kvs : List (String × Json)) : Option (String × List Json) :=
  match lookupStr "anyOf" kvs with
  | some (.arr items) => some ("anyOf", items)
  | _ =>
    match lookupStr "oneOf" kvs with
    | some (.arr items) => some ("oneOf", items)
    | _ =>
      match lookupStr "allOf" kvs with
      | some (.arr items) => some ("allOf", items)
      | _ => none

/-- Dispatch of `resolve_refs_recursively` for a dict without a `$ref` key,
parametrized by the resolution of the next recursion level: the selected
composite branch list is resolved item-wise and re-assembled under the same
key on a copy of the dict (`resolved_obj = obj.copy();
resolved_obj[key] = resolved_items`) — the other entries are copied
verbatim; a dict without a composite list has every value resolved
pointwise instead. -/
def compositeStep (resolve : Json → Json) (kvs : List (String × Json)) : Json :=
  match firstCompositeList kvs with
  | some (key, items) => .obj (objSet kvs key (.arr (items.map resolve)))
  | none => .obj (kvs.map (fun kv => (kv.1, resolve kv.2)))

/-- Fuel-indexed body of `resolve_refs_recursively`.  `fuel = 11 - depth`;
`fuel = 0` is the `depth > 10` guard returning the node unchanged.  The
branch order matches the source: `$ref` first (a truthy resolved target is
merged with the sibling keys and resolved one level deeper, a falsy one
keeps the node), then the composite chain; list items are resolved
pointwise; primitives are returned as-is.  A `$ref` whose value is not a
string would raise `AttributeError` in Python; the embedding returns the
node unchanged there. -/
def resolveGo (schemas : List (String × Json)) : Nat → Json → Json
  | 0, j => j
  | fuel + 1, j =>
    match j with
    | .obj kvs =>
      match lookupStr "$ref" kvs with
      | some (.str refPath) =>
        let resolvedSchema := resolveRef schemas refPath
        if jsonTruthy resolvedSchema then
          resolveGo schemas fuel (mergeSiblings resolvedSchema kvs)
        else .obj kvs
      | some _ => .obj kvs
      | none => compositeStep (resolveGo schemas fuel) kvs
    | .arr items => .arr (items.map (resolveGo schemas fuel))
    | other => other

/-- `resolve_refs_recursively(obj, depth=0)` with the source signature.
Totality of this definition is the termination guarantee: every recursive
call consumes one unit of the `11 - depth` fuel. -/
def resolveRefsRecursively (schemas : List (String × Json)) (j : Json)
    (depth : Nat := 0) : Json :=
  resolveGo schemas (11 - depth) j

/-- A schema table whose single definition refers to itself: the smallest
reference cycle. -/
def cyclicSchemas : List (String × Json) :=
  [("Node", Json.obj [("$ref", Json.str "#/components/schemas/Node")])]

/-- C1: for every schema table (cyclic ones included) and every node, the
resolver is total — the recursion is bounded by the depth guard — and any
node reached at a depth greater than the bound 10 is returned unchanged
(unresolved) rather than expanded further. -/
theorem C1_resolver_depth_bound (schemas : List (String × Json)) (j : Json)
    (depth : Nat) (h : depth > 10) :
    resolveRefsRecursively schemas j depth = j := by
  have hz : 11 - depth = 0 := by omega
  rw [resolveRefsRecursively, hz]
  rfl

/-- C1 witness: on the cyclic table `cyclicSchemas`, a node reached at depth
11 is returned unchanged. -/
theorem C1_resolver_depth_bound_witness :
    (11 > 10) ∧
      resolveRefsRecursively cyclicSchemas
        (Json.obj [("$ref", Json.str "#/components/schemas/Node")]) 11
      = Json.obj [("$ref", Json.str "#/components/schemas/Node")] :=
  ⟨by decide, C1_resolver_depth_bound cyclicSchemas _ 11 (by decide)⟩

/-! ### Reference-freeness and the no-dangling-references property (C3, C4) -/

mutual
/-- No dict anywhere in the value carries a `"$ref"` key. -/
def refFree : Json → Bool
  | .arr items => refFreeList items
  | .obj kvs => (lookupStr "$ref" kvs).isNone && refFreeEntries kvs
  | _ => true

/-- `refFree` for every element of a list. -/
def refFreeList : List Json → Bool
  | [] => true
  | j :: rest => refFree j && refFreeList rest

/-- `refFree` for every value of an association list. -/
def refFreeEntries : List (String × Json) → Bool
  | [] => true
  | kv :: rest => refFree kv.2 && refFreeEntries rest
end

/-- Every entry whose key differs from `k` has a reference-free value. -/
def entriesRefFreeExcept (l : List (String × Json)) (k : String) : Bool :=
  l.all (fun kv => kv.1 == k || refFree kv.2)

theorem refFreeEntries_iff (l : List (String × Json)) :
    refFreeEntries l = true ↔ ∀ kv ∈ l, refFree kv.2 = true := by
  induction l with
  | nil => simp [refFreeEntries]
  | cons kv rest ih => simp [refFreeEntries, ih]

theorem refFreeList_iff (l : List Json) :
    refFreeList l = true ↔ ∀ j ∈ l, refFree j = true := by
  induction l with
  | nil => simp [refFreeList]
  | cons j rest ih => simp [refFreeList, ih]

theorem lookupStr_mem {k : String} {l : List (String × Json)} {v : Json}
    (h : lookupStr k l = some v) : (k, v) ∈ l := by
  induction l with
  | nil => simp [lookupStr] at h
  | cons kv rest ih =>
    obtain ⟨k₁, v₁⟩ := kv
    by_cases hk : k₁ = k
    · subst hk
      simp [lookupStr] at h
      simp [h]
    · simp [lookupStr, hk] at h
      exact List.mem_cons_of_mem _ (ih h)

theorem lookupStr_none {k : String} {l : List (String × Json)}
    (h : lookupStr k l = none) : ∀ kv ∈ l, kv.1 ≠ k := by
  induction l with
  | nil => simp
  | cons kv rest ih =>
    intro kv' hkv'
    obtain ⟨k₁, v₁⟩ := kv
    by_cases hk : k₁ = k
    · simp [lookupStr, hk] at h
    · simp [lookupStr, hk] at h
      rcases List.mem_cons.1 hkv' with h' | h'
      · rw [h']; exact hk
      · exact ih h kv' h'

theorem mem_objSet {l : List (String × Json)} {k : String} {v : Json} {kv : String × Json}
    (h : kv ∈ objSet l k v) : kv = (k, v) ∨ kv ∈ l := by
  induction l with
  | nil => simp [objSet] at h; simp [h]
  | cons kv₁ rest ih =>
    obtain ⟨k₁, v₁⟩ := kv₁
    by_cases hk : k₁ = k
    · subst hk
      simp [objSet] at h
      rcases h with h | h
      · exact Or.inl (by simp [h])
      · exact Or.inr (by simp [h])
    · simp [objSet, hk] at h
      rcases h with h | h
      · exact Or.inr (by simp [h])
      · rcases ih h with h' | h'
        · exact Or.inl h'
        · exact Or.inr (List.mem_cons_of_mem _ h')

theorem refFreeEntries_objSet {l : List (String × Json)} {k : String} {v : Json}
    (hl : refFreeEntries l = true) (hv : refFree v = true) :
    refFreeEntries (objSet l k v) = true := by
  rw [refFreeEntries_iff] at hl ⊢
  intro kv hkv
  rcases mem_objSet hkv with h | h
  · rw [h]; exact hv
  · exact hl kv h

theorem refFree_jsonSet {j : Json} {k : String} {v : Json} (hk : k ≠ "$ref")
    (hj : refFree j = true) (hv : refFree v = true) :
    refFree (jsonSet j k v) = true := by
  cases j with
  | obj kvs =>
    simp only [refFree, Bool.and_eq_true] at hj
    simp only [jsonSet, refFree, Bool.and_eq_true]
    refine ⟨?_, refFreeEntries_objSet hj.2 hv⟩
    rw [lookupStr_objSet_other kvs v (Ne.symm hk)]
    exact hj.1
  | null => exact hj
  | bool b => exact hj
  | num n => exact hj
  | str s => exact hj
  | arr items => exact hj

theorem refFree_mergeSiblings {resolved : Json} {kvs : List (String × Json)}
    (hr : refFree resolved = true) (hsib : entriesRefFreeExcept kvs "$ref" = true) :
    refFree (mergeSiblings resolved kvs) = true := by
  induction kvs generalizing resolved with
  | nil => exact hr
  | cons kv rest ih =>
    rw [show entriesRefFreeExcept (kv :: rest) "$ref"
          = ((kv.1 == "$ref" || refFree kv.2) && entriesRefFreeExcept rest "$ref")
        from rfl, Bool.and_eq_true] at hsib
    have hstep : mergeSiblings resolved (kv :: rest)
        = mergeSiblings (if kv.1 = "$ref" then resolved else jsonSet resolved kv.1 kv.2)
            rest := rfl
    rw [hstep]
    by_cases hk : kv.1 = "$ref"
    · rw [if_pos hk]
      exact ih hr hsib.2
    · rw [if_neg hk]
      have hv : refFree kv.2 = true := by
        have h1 := hsib.1
        simp [hk] at h1
        exact h1
      exact ih (refFree_jsonSet hk hr hv) hsib.2

theorem refFreeEntries_map {l : List (String × Json)} {f : Json → Json}
    (h : ∀ kv ∈ l, refFree (f kv.2) = true) :
    refFreeEntries (l.map (fun kv => (kv.1, f kv.2))) = true := by
  rw [refFreeEntries_iff]
  intro kv hkv
  rcases List.mem_map.1 hkv with ⟨kv₀, hkv₀, rfl⟩
  exact h kv₀ hkv₀

theorem refFreeList_map {l : List Json} {f : Json → Json}
    (h : ∀ j ∈ l, refFree (f j) = true) :
    refFreeList (l.map f) = true := by
  rw [refFreeList_iff]
  intro j hj
  rcases List.mem_map.1 hj with ⟨j₀, hj₀, rfl⟩
  exact h j₀ hj₀

theorem entriesRefFreeExcept_of_refFree {l : List (String × Json)} (k : String)
    (h : refFreeEntries l = true) : entriesRefFreeExcept l k = true := by
  rw [refFreeEntries_iff] at h
  refine List.all_eq_true.2 (fun kv hkv => ?_)
  simp [h kv hkv]

theorem refFreeEntries_of_except {l : List (String × Json)} {key : String}
    (hexc : entriesRefFreeExcept l key = true) (hnk : ∀ kv ∈ l, kv.1 ≠ key) :
    refFreeEntries l = true := by
  rw [refFreeEntries_iff]
  intro kv hkv
  have h := List.all_eq_true.1 hexc kv hkv
  simp [hnk kv hkv] at h
  exact h

theorem refFreeEntries_objSet_except {l : List (String × Json)} {key : String} {v : Json}
    (hnd : keysNodup l = true) (hexc : entriesRefFreeExcept l key = true)
    (hv : refFree v = true) : refFreeEntries (objSet l key v) = true := by
  induction l with
  | nil => simp [objSet, refFreeEntries, hv]
  | cons kv rest ih =>
    obtain ⟨k₁, v₁⟩ := kv
    rw [show keysNodup ((k₁, v₁) :: rest)
          = (!(rest.any (fun kv => kv.1 == k₁)) && keysNodup rest) from rfl,
        Bool.and_eq_true] at hnd
    rw [show entriesRefFreeExcept ((k₁, v₁) :: rest) key
          = ((k₁ == key || refFree v₁) && entriesRefFreeExcept rest key) from rfl,
        Bool.and_eq_true] at hexc
    by_cases hk : k₁ = key
    · subst hk
      rw [show objSet ((k₁, v₁) :: rest) k₁ v = (k₁, v) :: rest by simp [objSet]]
      rw [show refFreeEntries ((k₁, v) :: rest) = (refFree v && refFreeEntries rest)
          from rfl, Bool.and_eq_true]
      refine ⟨hv, refFreeEntries_of_except hexc.2 ?_⟩
      intro kv hkv
      have := hnd.1
      simp only [Bool.not_eq_true', List.any_eq_false] at this
      have h' := this kv hkv
      simpa using h'
    · rw [show objSet ((k₁, v₁) :: rest) key v = (k₁, v₁) :: objSet rest key v by
          simp [objSet, hk]]
      rw [show refFreeEntries ((k₁, v₁) :: objSet rest key v)
          = (refFree v₁ && refFreeEntries (objSet rest key v)) from rfl,
        Bool.and_eq_true]
      have hv₁ : refFree v₁ = true := by
        have h1 := hexc.1
        simp [hk] at h1
        exact h1
      exact ⟨hv₁, ih hnd.2 hexc.2⟩

theorem firstCompositeList_spec {kvs : List (String × Json)} {key : String}
    {items : List Json} (h : firstCompositeList kvs = some (key, items)) :
    (key = "anyOf" ∨ key = "oneOf" ∨ key = "allOf")
      ∧ lookupStr key kvs = some (.arr items) := by
  unfold firstCompositeList at h
  split at h
  · next heq =>
    injection h with h'
    injection h' with h₁ h₂
    subst h₁; subst h₂
    exact ⟨Or.inl rfl, heq⟩
  · split at h
    · next heq =>
      injection h with h'
      injection h' with h₁ h₂
      subst h₁; subst h₂
      exact ⟨Or.inr (Or.inl rfl), heq⟩
    · split at h
      · next heq =>
        injection h with h'
        injection h' with h₁ h₂
        subst h₁; subst h₂
        exact ⟨Or.inr (Or.inr rfl), heq⟩
      · exact absurd h (by simp)

theorem firstCompositeList_key_ne {kvs : List (String × Json)} {key : String}
    {items : List Json} (h : firstCompositeList kvs = some (key, items)) :
    key ≠ "$ref" := by
  rcases (firstCompositeList_spec h).1 with h' | h' | h' <;> subst h' <;> decide

/-- A reference-free node is mapped to a reference-free node by the
`anyOf`/`oneOf`/`allOf` dispatch, provided the per-item resolution preserves
reference-freeness. -/
theorem refFree_compositeStep_of_refFree (resolve : Json → Json)
    (kvs : List (String × Json)) (hnone : lookupStr "$ref" kvs = none)
    (hE : refFreeEntries kvs = true)
    (hres : ∀ j, refFree j = true → refFree (resolve j) = true) :
    refFree (compositeStep resolve kvs) = true := by
  have hvalues := (refFreeEntries_iff kvs).1 hE
  unfold compositeStep
  rcases hfc : firstCompositeList kvs with _ | ⟨key, items⟩
  · simp only [refFree, Bool.and_eq_true]
    refine ⟨?_, refFreeEntries_map (fun kv hkv => hres _ (hvalues kv hkv))⟩
    rw [lookupStr_map_snd, hnone]
    rfl
  · have hkey := firstCompositeList_key_ne hfc
    have hitems := (firstCompositeList_spec hfc).2
    have harr : refFree (Json.arr items) = true := hvalues _ (lookupStr_mem hitems)
    simp only [refFree] at harr
    simp only [refFree, Bool.and_eq_true]
    constructor
    · rw [lookupStr_objSet_other kvs _ (Ne.symm hkey), hnone]
      rfl
    · refine refFreeEntries_objSet hE ?_
      simp only [refFree]
      exact refFreeList_map (fun j hj => hres j ((refFreeList_iff items).1 harr j hj))

/-- The resolver never introduces references: a reference-free node stays
reference-free at any fuel. -/
theorem refFree_resolveGo (schemas : List (String × Json)) :
    ∀ fuel j, refFree j = true → refFree (resolveGo schemas fuel j) = true := by
  intro fuel
  induction fuel with
  | zero => intro j hj; exact hj
  | succ fuel ih =>
    intro j hj
    cases j with
    | obj kvs =>
      have hj' := hj
      simp only [refFree, Bool.and_eq_true] at hj'
      have hnone : lookupStr "$ref" kvs = none := by
        cases hx : lookupStr "$ref" kvs with
        | none => rfl
        | some v => rw [hx] at hj'; simp [Option.isNone] at hj'
      show refFree (resolveGo schemas (fuel + 1) (Json.obj kvs)) = true
      simp only [resolveGo, hnone]
      exact refFree_compositeStep_of_refFree _ _ hnone hj'.2 ih
    | arr items =>
      simp only [refFree] at hj
      show refFree (Json.arr (items.map (resolveGo schemas fuel))) = true
      simp only [refFree]
      exact refFreeList_map (fun j hjm => ih j ((refFreeList_iff items).1 hj j hjm))
    | null => exact hj
    | bool b => exact hj
    | num n => exact hj
    | str s => exact hj

/-- Dispatch check mirroring `compositeStep`: the selected composite branch
items all satisfy `ok` and the entries outside that branch are
reference-free; a dict without a composite list has all its values satisfy
`ok`. -/
def okCompositeStep (ok : Json → Bool) (kvs : List (String × Json)) : Bool :=
  match firstCompositeList kvs with
  | some (key, items) => items.all ok && entriesRefFreeExcept kvs key
  | none => kvs.all (fun kv => ok kv.2)

/-- Sufficient condition for complete dereferencing, mirroring the recursion
structure of `resolveGo`: exhausted fuel demands an already reference-free
node; a `$ref` node must resolve to a truthy, reference-free target and its
sibling values must be reference-free; a plain dict must have distinct keys
and pass the composite dispatch check one fuel level down. -/
def okGo (schemas : List (String × Json)) : Nat → Json → Bool
  | 0, j => refFree j
  | fuel + 1, j =>
    match j with
    | .obj kvs =>
      match lookupStr "$ref" kvs with
      | some (.str refPath) =>
        jsonTruthy (resolveRef schemas refPath)
          && (refFree (resolveRef schemas refPath)
            && entriesRefFreeExcept kvs "$ref")
      | some _ => false
      | none => keysNodup kvs && okCompositeStep (okGo schemas fuel) kvs
    | .arr items => items.all (okGo schemas fuel)
    | _ => true

/-- A schema node is well-formed for resolution at a given starting depth:
its references (and those of the definitions they pull in) fit in the
remaining `11 - depth` fuel, every reference resolves to a truthy
reference-free target, composite nodes carry references only inside their
selected branch list, and dict keys are distinct. -/
def wellFormedForResolution (schemas : List (String × Json)) (j : Json)
    (depth : Nat := 0) : Bool :=
  okGo schemas (11 - depth) j

theorem okCompositeStep_refFree (resolve : Json → Json) (ok : Json → Bool)
    (kvs : List (String × Json)) (hnone : lookupStr "$ref" kvs = none)
    (hnd : keysNodup kvs = true) (hok : okCompositeStep ok kvs = true)
    (hro : ∀ j, ok j = true → refFree (resolve j) = true) :
    refFree (compositeStep resolve kvs) = true := by
  unfold compositeStep
  unfold okCompositeStep at hok
  rcases hfc : firstCompositeList kvs with _ | ⟨key, items⟩
  · rw [hfc] at hok
    simp only [refFree, Bool.and_eq_true]
    refine ⟨?_, refFreeEntries_map (fun kv hkv => hro _ (List.all_eq_true.1 hok kv hkv))⟩
    rw [lookupStr_map_snd, hnone]
    rfl
  · rw [hfc, Bool.and_eq_true] at hok
    have hkey := firstCompositeList_key_ne hfc
    simp only [refFree, Bool.and_eq_true]
    constructor
    · rw [lookupStr_objSet_other kvs _ (Ne.symm hkey), hnone]
      rfl
    · refine refFreeEntries_objSet_except hnd hok.2 ?_
      simp only [refFree]
      exact refFreeList_map (fun j hj => hro j (List.all_eq_true.1 hok.1 j hj))

/-- Core induction: a node passing `okGo` resolves to a reference-free
node at the same fuel. -/
theorem okGo_refFree (schemas : List (String × Json)) :
    ∀ fuel j, okGo schemas fuel j = true → refFree (resolveGo schemas fuel j) = true := by
  intro fuel
  induction fuel with
  | zero => intro j h; exact h
  | succ fuel ih =>
    intro j hok
    cases j with
    | obj kvs =>
      rcases href : lookupStr "$ref" kvs with _ | v
      · simp only [okGo, href, Bool.and_eq_true] at hok
        simp only [resolveGo, href]
        exact okCompositeStep_refFree _ _ _ href hok.1 hok.2 ih
      · cases v with
        | str refPath =>
          simp only [okGo, href, Bool.and_eq_true] at hok
          obtain ⟨ht, hr, he⟩ := hok
          simp only [resolveGo, href, ht, if_true]
          exact refFree_resolveGo schemas fuel _ (refFree_mergeSiblings hr he)
        | null => exact absurd (by simpa only [okGo, href] using hok) (by decide)
        | bool b => exact absurd (by simpa only [okGo, href] using hok) (by decide)
        | num n => exact absurd (by simpa only [okGo, href] using hok) (by decide)
        | arr items => exact absurd (by simpa only [okGo, href] using hok) (by decide)
        | obj o => exact absurd (by simpa only [okGo, href] using hok) (by decide)
    | arr items =>
      simp only [okGo] at hok
      simp only [resolveGo, refFree]
      exact refFreeList_map (fun j hj => ih j (List.all_eq_true.1 hok j hj))
    | null => rfl
    | bool b => rfl
    | num n => rfl
    | str s => rfl

/-! ### Claim-level predicates: where references sit and whether they resolve -/

mutual
/-- Some dict with a `"$ref"` key occurs anywhere in the value. -/
def hasAnyRef : Json → Bool
  | .obj kvs => (lookupStr "$ref" kvs).isSome || hasAnyRefEntries kvs
  | .arr items => hasAnyRefList items
  | _ => false

/-- `hasAnyRef` for some element of a list. -/
def hasAnyRefList : List Json → Bool
  | [] => false
  | j :: rest => hasAnyRef j || hasAnyRefList rest

/-- `hasAnyRef` for some value of an association list. -/
def hasAnyRefEntries : List (String × Json) → Bool
  | [] => false
  | kv :: rest => hasAnyRef kv.2 || hasAnyRefEntries rest
end

mutual
/-- Some dict with a `"$ref"` key occurs at (structural) depth at most `d`;
each dict or list level counts one unit of depth. -/
def hasRefWithinDepth : Json → Nat → Bool
  | .obj kvs, d =>
    (lookupStr "$ref" kvs).isSome ||
      (match d with
       | 0 => false
       | d' + 1 => hasRefWithinDepthEntries kvs d')
  | .arr items, d =>
    (match d with
     | 0 => false
     | d' + 1 => hasRefWithinDepthList items d')
  | _, _ => false

/-- `hasRefWithinDepth` for some element of a list. -/
def hasRefWithinDepthList : List Json → Nat → Bool
  | [], _ => false
  | j :: rest, d => hasRefWithinDepth j d || hasRefWithinDepthList rest d

/-- `hasRefWithinDepth` for some value of an association list. -/
def hasRefWithinDepthEntries : List (String × Json) → Nat → Bool
  | [], _ => false
  | kv :: rest, d => hasRefWithinDepth kv.2 d || hasRefWithinDepthEntries rest d
end

mutual
/-- Some dict with a `"$ref"` key occurs at (structural) depth strictly
greater than `d`. -/
def hasRefBeyondDepth : Json → Nat → Bool
  | .obj kvs, d =>
    (match d with
     | 0 => hasAnyRefEntries kvs
     | d' + 1 => hasRefBeyondDepthEntries kvs d')
  | .arr items, d =>
    (match d with
     | 0 => hasAnyRefList items
     | d' + 1 => hasRefBeyondDepthList items d')
  | _, _ => false

/-- `hasRefBeyondDepth` for some element of a list. -/
def hasRefBeyondDepthList : List Json → Nat → Bool
  | [], _ => false
  | j :: rest, d => hasRefBeyondDepth j d || hasRefBeyondDepthList rest d

/-- `hasRefBeyondDepth` for some value of an association list. -/
def hasRefBeyondDepthEntries : List (String × Json) → Nat → Bool
  | [], _ => false
  | kv :: rest, d => hasRefBeyondDepth kv.2 d || hasRefBeyondDepthEntries rest d
end

mutual
/-- Every `"$ref"` node in the value holds a string path whose target exists
in the schema table (and is truthy, so the resolver accepts it). -/
def refsResolvable (schemas : List (String × Json)) : Json → Bool
  | .obj kvs =>
    (match lookupStr "$ref" kvs with
     | some (.str p) => jsonTruthy (resolveRef schemas p)
     | some _ => false
     | none => true) && refsResolvableEntries schemas kvs
  | .arr items => refsResolvableList schemas items
  | _ => true

/-- `refsResolvable` for every element of a list. -/
def refsResolvableList (schemas : List (String × Json)) : List Json → Bool
  | [] => true
  | j :: rest => refsResolvable schemas j && refsResolvableList schemas rest

/-- `refsResolvable` for every value of an association list. -/
def refsResolvableEntries (schemas : List (String × Json)) : List (String × Json) → Bool
  | [] => true
  | kv :: rest => refsResolvable schemas kv.2 && refsResolvableEntries schemas rest
end

/-- Schema table for the C3 examples: one plain named definition. -/
def schemasC3 : List (String × Json) := [("A", Json.obj [("type", Json.str "string")])]

/-- A composite node carrying a reference under a sibling key (`extra`) next
to its `anyOf` list: every `$ref` occurs at depth 1 and resolves, yet the
resolver only rewrites the `anyOf` branch and copies `extra` verbatim. -/
def inputC3 : Json :=
  Json.obj
    [("anyOf", Json.arr [Json.obj [("type", Json.str "string")]]),
     ("extra", Json.obj [("$ref", Json.str "#/components/schemas/A")])]

/-- C3 counterexample: a schema graph whose `$ref` nodes all occur at depth
at most 10 (none beyond depth 10) and all resolve, for which the resolver
output still contains a reference node within depth 10: the claim fails
because the `anyOf`/`oneOf`/`allOf` handling resolves only the branch list
and copies all sibling entries verbatim. -/
theorem C3_counterexample :
    refsResolvable schemasC3 inputC3 = true
      ∧ hasRefBeyondDepth inputC3 10 = false
      ∧ hasRefWithinDepth (resolveRefsRecursively schemasC3 inputC3 0) 10 = true := by
  refine ⟨by decide, by decide, by decide⟩

/-- C3 (amended): for any schema graph that is well-formed for resolution —
its `$ref` nodes (and the reference chains they open) fit within the depth
bound, every reference resolves to a truthy reference-free definition,
references under a composite node occur only inside the selected
`anyOf`/`oneOf`/`allOf` branch list, sibling values of a `$ref` are
reference-free, and dict keys are distinct — the resolver output contains
zero reference nodes (at any depth, hence within the bound). -/
theorem C3_resolution_eliminates_refs (schemas : List (String × Json)) (j : Json)
    (depth : Nat) (h : wellFormedForResolution schemas j depth = true) :
    refFree (resolveRefsRecursively schemas j depth) = true :=
  okGo_refFree schemas (11 - depth) j h

/-- C3 witness: a reference node with a sibling key, resolved from depth 0
against `schemasC3`, is well-formed and resolves to a reference-free node. -/
theorem C3_resolution_eliminates_refs_witness :
    wellFormedForResolution schemasC3
        (Json.obj [("$ref", Json.str "#/components/schemas/A"),
          ("description", Json.str "d")]) 0 = true
      ∧ refFree (resolveRefsRecursively schemasC3
          (Json.obj [("$ref", Json.str "#/components/schemas/A"),
            ("description", Json.str "d")]) 0) = true :=
  ⟨by decide, C3_resolution_eliminates_refs schemasC3 _ 0 (by decide)⟩

/-! ### Sibling-key precedence at a reference substitution (C4) -/

/-- Entry-level form of `mergeSiblings` when the resolved target is a dict. -/
def mergeEntries (t : List (String × Json)) (kvs : List (String × Json)) :
    List (String × Json) :=
  kvs.foldl (fun acc kv => if kv.1 = "$ref" then acc else objSet acc kv.1 kv.2) t

theorem mergeSiblings_obj (t : List (String × Json)) (kvs : List (String × Json)) :
    mergeSiblings (.obj t) kvs = .obj (mergeEntries t kvs) := by
  induction kvs generalizing t with
  | nil => rfl
  | cons kv rest ih =>
    have h₁ : mergeSiblings (Json.obj t) (kv :: rest)
        = mergeSiblings (if kv.1 = "$ref" then Json.obj t
            else jsonSet (Json.obj t) kv.1 kv.2) rest := rfl
    have h₂ : mergeEntries t (kv :: rest)
        = mergeEntries (if kv.1 = "$ref" then t else objSet t kv.1 kv.2) rest := rfl
    rw [h₁, h₂]
    by_cases hk : kv.1 = "$ref"
    · rw [if_pos hk, if_pos hk, ih]
    · rw [if_neg hk, if_neg hk]
      show mergeSiblings (Json.obj (objSet t kv.1 kv.2)) rest = _
      rw [ih]

theorem lookup_mergeEntries_of_notkey {kvs : List (String × Json)} {k : String}
    (t : List (String × Json)) (h : ∀ kv ∈ kvs, kv.1 ≠ k) :
    lookupStr k (mergeEntries t kvs) = lookupStr k t := by
  induction kvs generalizing t with
  | nil => rfl
  | cons kv rest ih =>
    have hstep : mergeEntries t (kv :: rest)
        = mergeEntries (if kv.1 = "$ref" then t else objSet t kv.1 kv.2) rest := rfl
    rw [hstep, ih _ (fun kv' h' => h kv' (List.mem_cons_of_mem _ h'))]
    by_cases hk : kv.1 = "$ref"
    · rw [if_pos hk]
    · rw [if_neg hk, lookupStr_objSet_other _ _ (Ne.symm (h kv (List.mem_cons_self kv rest)))]

theorem lookup_mergeEntries_of_mem {kvs : List (String × Json)} {k : String} {v : Json}
    (t : List (String × Json)) (hnd : keysNodup kvs = true)
    (hkv : lookupStr k kvs = some v) (hne : k ≠ "$ref") :
    lookupStr k (mergeEntries t kvs) = some v := by
  induction kvs generalizing t with
  | nil => simp [lookupStr] at hkv
  | cons kv rest ih =>
    obtain ⟨k₁, v₁⟩ := kv
    rw [show keysNodup ((k₁, v₁) :: rest)
          = (!(rest.any (fun kv => kv.1 == k₁)) && keysNodup rest) from rfl,
        Bool.and_eq_true] at hnd
    have hstep : mergeEntries t ((k₁, v₁) :: rest)
        = mergeEntries (if k₁ = "$ref" then t else objSet t k₁ v₁) rest := rfl
    rw [hstep]
    by_cases h1 : k₁ = k
    · subst h1
      have hv : v₁ = v := by simpa [lookupStr] using hkv
      subst hv
      have hrest : ∀ kv ∈ rest, kv.1 ≠ k₁ := by
        have h2 := hnd.1
        simp only [Bool.not_eq_true', List.any_eq_false] at h2
        intro kv hkv'
        simpa using h2 kv hkv'
      rw [if_neg hne, lookup_mergeEntries_of_notkey _ hrest, lookupStr_objSet_self]
    · have hkv' : lookupStr k rest = some v := by simpa [lookupStr, h1] using hkv
      by_cases hk : k₁ = "$ref"
      · rw [if_pos hk]
        exact ih t hnd.2 hkv'
      · rw [if_neg hk]
        exact ih _ hnd.2 hkv'

/-- C4: at a reference substitution (a dict with a string `$ref` whose
target resolves to a truthy dict, reached within the depth bound), the
resolver recurses on the sibling merge, and in that merge every non-`$ref`
key of the reference node keeps the reference node's value — overriding an
identically-named key of the target — while keys absent from the reference
node are looked up in the target unchanged. -/
theorem C4_sibling_key_precedence (schemas : List (String × Json))
    (kvs tEntries : List (String × Json)) (refPath : String) (depth : Nat)
    (hdepth : depth ≤ 10)
    (href : lookupStr "$ref" kvs = some (.str refPath))
    (htarget : resolveRef schemas refPath = .obj tEntries)
    (htruthy : jsonTruthy (Json.obj tEntries) = true)
    (hnd : keysNodup kvs = true) :
    resolveRefsRecursively schemas (.obj kvs) depth
      = resolveRefsRecursively schemas (.obj (mergeEntries tEntries kvs)) (depth + 1)
    ∧ (∀ k v, k ≠ "$ref" → lookupStr k kvs = some v →
        lookupStr k (mergeEntries tEntries kvs) = some v)
    ∧ (∀ k, lookupStr k kvs = none →
        lookupStr k (mergeEntries tEntries kvs) = lookupStr k tEntries) := by
  refine ⟨?_, fun k v hne hkv => lookup_mergeEntries_of_mem _ hnd hkv hne,
    fun k hk => lookup_mergeEntries_of_notkey _ (lookupStr_none hk)⟩
  obtain ⟨f, hf⟩ : ∃ f, 11 - depth = f + 1 := ⟨10 - depth, by omega⟩
  have hf' : 11 - (depth + 1) = f := by omega
  rw [resolveRefsRecursively, resolveRefsRecursively, hf, hf']
  simp only [resolveGo, href, htarget, htruthy, if_true]
  rw [mergeSiblings_obj]

/-- Schema table for the C4 witness: the target carries both a key that the
reference node overrides and one it does not. -/
def schemasC4 : List (String × Json) :=
  [("A", Json.obj [("type", Json.str "string"), ("description", Json.str "from-target")])]

/-- Reference node with a local sibling `description` for the C4 witness. -/
def kvsC4 : List (String × Json) :=
  [("$ref", Json.str "#/components/schemas/A"), ("description", Json.str "local-override")]

/-- Entries of the resolved target of `kvsC4` in `schemasC4`. -/
def tC4 : List (String × Json) :=
  [("type", Json.str "string"), ("description", Json.str "from-target")]

/-- C4 witness: on concrete data, the local sibling `description` wins over
the target's `description`, and the target's `type` key is preserved. -/
theorem C4_sibling_key_precedence_witness :
    lookupStr "description" (mergeEntries tC4 kvsC4) = some (Json.str "local-override")
      ∧ lookupStr "type" (mergeEntries tC4 kvsC4) = lookupStr "type" tC4 := by
  have h := C4_sibling_key_precedence schemasC4 kvsC4 tC4 "#/components/schemas/A" 0
    (by decide) rfl rfl (by decide) (by decide)
  exact ⟨h.2.1 "description" (Json.str "local-override") (by decide) rfl, h.2.2 "type" rfl⟩

/-! ### Operation-id canonicalization (`server.py`, `_simplify_operation_ids`) -/

/-- Lookup in a string-to-string association list (Python dict access). -/
def lookupAssoc (k : String) : List (String × String) → Option String
  | [] => none
  | (k', v) :: rest => if k' = k then some v else lookupAssoc k rest

/-- The fixed `path_to_operation_id` table of `_simplify_operation_ids`. -/
def pathToOperationId : List (String × String) :=
  [("/api/v2/affected-people/refugees-persons-of-concern", "affected_people_refugees_get"),
   ("/api/v2/affected-people/humanitarian-needs", "affected_people_humanitarian_needs_get"),
   ("/api/v2/affected-people/idps", "affected_people_idps_get"),
   ("/api/v2/affected-people/returnees", "affected_people_returnees_get"),
   ("/api/v2/coordination-context/operational-presence", "coordination_operational_presence_get"),
   ("/api/v2/coordination-context/funding", "coordination_funding_get"),
   ("/api/v2/coordination-context/conflict-events", "coordination_conflict_events_get"),
   ("/api/v2/coordination-context/national-risk", "coordination_national_risk_get"),
   ("/api/v2/food-security-nutrition-poverty/food-security", "food_security_get"),
   ("/api/v2/food-security-nutrition-poverty/food-prices-market-monitor", "food_prices_get"),
   ("/api/v2/food-security-nutrition-poverty/poverty-rate", "poverty_rate_get"),
   ("/api/v2/geography-infrastructure/baseline-population", "baseline_population_get"),
   ("/api/v2/climate/rainfall", "climate_rainfall_get"),
   ("/api/v2/metadata/dataset", "metadata_dataset_get"),
   ("/api/v2/metadata/resource", "metadata_resource_get"),
   ("/api/v2/metadata/location", "metadata_location_get"),
   ("/api/v2/metadata/admin1", "metadata_admin1_get"),
   ("/api/v2/metadata/admin2", "metadata_admin2_get"),
   ("/api/v2/metadata/currency", "metadata_currency_get"),
   ("/api/v2/metadata/org", "metadata_org_get"),
   ("/api/v2/metadata/org-type", "metadata_org_type_get"),
   ("/api/v2/metadata/sector", "metadata_sector_get"),
   ("/api/v2/metadata/wfp-commodity", "metadata_wfp_commodity_get"),
   ("/api/v2/metadata/wfp-market", "metadata_wfp_market_get"),
   ("/api/v2/metadata/data-availability", "metadata_data_availability_get"),
   ("/api/v2/util/version", "util_version_get")]

/-- Per-method update: a dict with an `operationId` gets it overwritten with
the canonical id; any other value is left alone (`isinstance(method_data,
dict) and "operationId" in method_data`). -/
def simplifyMethodData (newId : String) (md : Json) : Json :=
  match md with
  | .obj mkvs =>
    if (lookupStr "operationId" mkvs).isSome then
      .obj (objSet mkvs "operationId" (.str newId))
    else md
  | _ => md

/-- Per-path update: a path present in the table has every method updated;
a path absent from the table keeps its data unchanged.  (For a table path
whose path data is not a dict Python would raise on `.items()`; such values
are left unchanged here.) -/
def simplifyPathEntry (p : String) (pd : Json) : Json :=
  match lookupAssoc p pathToOperationId with
  | some nid =>
    match pd with
    | .obj ms => .obj (ms.map (fun kv => (kv.1, simplifyMethodData nid kv.2)))
    | _ => pd
  | none => pd

/-- `_simplify_operation_ids`: map the per-path update over `spec["paths"]`.
The function returns the rewritten specification and nothing else — it has
no error or warning channel for identifier collisions. -/
def simplifyOperationIds (spec : Json) : Json :=
  match spec with
  | .obj kvs =>
    match lookupStr "paths" kvs with
    | some (.obj paths) =>
      .obj (objSet kvs "paths"
        (.obj (paths.map (fun kv => (kv.1, simplifyPathEntry kv.1 kv.2)))))
    | _ => spec
  | _ => spec

/-- The `operationId` recorded for a `(path, method)` operation of a spec. -/
def operationIdAt (spec : Json) (p m : String) : Option Json :=
  match spec with
  | .obj kvs =>
    match lookupStr "paths" kvs with
    | some (.obj paths) =>
      match lookupStr p paths with
      | some (.obj ms) =>
        match lookupStr m ms with
        | some (.obj mkvs) => lookupStr "operationId" mkvs
        | _ => none
      | _ => none
    | _ => none
  | _ => none

/-- A specification in which one table path carries two methods, each with
its own generated `operationId`. -/
def specC5 : Json :=
  Json.obj [("paths", Json.obj
    [("/api/v2/metadata/dataset", Json.obj
      [("get", Json.obj [("operationId", Json.str "get_dataset")]),
       ("post", Json.obj [("operationId", Json.str "post_dataset")])])])]

/-- C5 counterexample: after `_simplify_operation_ids`, the two distinct
`(path, method)` operations `GET` and `POST` on `/api/v2/metadata/dataset`
carry the same canonical `operationId`; the pass returns the rewritten
specification itself, with no detection or flagging — its type has no error
channel — so the collision is produced silently. -/
theorem C5_counterexample :
    operationIdAt (simplifyOperationIds specC5) "/api/v2/metadata/dataset" "get"
        = some (Json.str "metadata_dataset_get")
      ∧ operationIdAt (simplifyOperationIds specC5) "/api/v2/metadata/dataset" "post"
        = some (Json.str "metadata_dataset_get")
      ∧ "get" ≠ "post" :=
  ⟨rfl, rfl, by decide⟩

theorem lookupAssoc_mem {k v : String} {l : List (String × String)}
    (h : lookupAssoc k l = some v) : (k, v) ∈ l := by
  induction l with
  | nil => simp [lookupAssoc] at h
  | cons kv rest ih =>
    obtain ⟨k₁, v₁⟩ := kv
    by_cases hk : k₁ = k
    · subst hk
      simp [lookupAssoc] at h
      simp [h]
    · simp [lookupAssoc, hk] at h
      exact List.mem_cons_of_mem _ (ih h)

theorem values_nodup_inj {l : List (String × String)}
    (hnd : (l.map Prod.snd).Nodup) {p₁ p₂ i : String}
    (h₁ : (p₁, i) ∈ l) (h₂ : (p₂, i) ∈ l) : p₁ = p₂ := by
  induction l with
  | nil => cases h₁
  | cons kv rest ih =>
    rw [List.map_cons, List.nodup_cons] at hnd
    rcases List.mem_cons.1 h₁ with e₁ | m₁ <;> rcases List.mem_cons.1 h₂ with e₂ | m₂
    · rw [show p₁ = kv.1 by rw [← e₁], show p₂ = kv.1 by rw [← e₂]]
    · exfalso
      exact hnd.1 (List.mem_map.2 ⟨(p₂, i), m₂, by rw [← e₁]⟩)
    · exfalso
      exact hnd.1 (List.mem_map.2 ⟨(p₁, i), m₁, by rw [← e₂]⟩)
    · exact ih hnd.2 m₁ m₂

theorem lookupStr_map_key_snd (l : List (String × Json)) (k : String)
    (g : String → Json → Json) :
    lookupStr k (l.map (fun kv => (kv.1, g kv.1 kv.2)))
      = (lookupStr k l).map (g k) := by
  induction l with
  | nil => simp [lookupStr]
  | cons kv rest ih =>
    by_cases h : kv.1 = k
    · subst h
      simp [lookupStr]
    · simp [lookupStr, h, ih]

/-- Whatever `operationId` the transformed spec records for a method of a
table path must be the table's canonical id. -/
theorem operationIdAt_simplify_table {spec : Json} {p m nid : String} {v : Json}
    (htab : lookupAssoc p pathToOperationId = some nid)
    (h : operationIdAt (simplifyOperationIds spec) p m = some v) :
    v = .str nid := by
  cases spec with
  | obj kvs =>
    rcases hpaths : lookupStr "paths" kvs with _ | pv
    case none =>
      rw [show simplifyOperationIds (Json.obj kvs) = Json.obj kvs by
        simp only [simplifyOperationIds, hpaths]] at h
      rw [show operationIdAt (Json.obj kvs) p m = none by
        simp only [operationIdAt, hpaths]] at h
      exact Option.noConfusion h
    case some =>
      cases pv with
      | obj paths =>
        rw [show simplifyOperationIds (Json.obj kvs)
            = .obj (objSet kvs "paths"
              (.obj (paths.map (fun kv => (kv.1, simplifyPathEntry kv.1 kv.2))))) by
          simp only [simplifyOperationIds, hpaths]] at h
        have h₁ : (match lookupStr p
              (paths.map (fun kv => (kv.1, simplifyPathEntry kv.1 kv.2))) with
            | some (.obj ms) =>
              (match lookupStr m ms with
               | some (.obj mkvs) => lookupStr "operationId" mkvs
               | _ => none)
            | _ => none) = some v := by
          rw [show (match lookupStr p
                (paths.map (fun kv => (kv.1, simplifyPathEntry kv.1 kv.2))) with
              | some (.obj ms) =>
                (match lookupStr m ms with
                 | some (.obj mkvs) => lookupStr "operationId" mkvs
                 | _ => none)
              | _ => none)
              = operationIdAt (.obj (objSet kvs "paths"
                  (.obj (paths.map (fun kv => (kv.1, simplifyPathEntry kv.1 kv.2)))))) p m by
            simp only [operationIdAt, lookupStr_objSet_self]]
          exact h
        rw [lookupStr_map_key_snd] at h₁
        rcases hp : lookupStr p paths with _ | pd
        · rw [hp] at h₁
          exact Option.noConfusion (show (none : Option Json) = some v from h₁)
        · rw [hp] at h₁
          simp only [Option.map_some'] at h₁
          cases pd with
          | obj ms =>
            rw [show simplifyPathEntry p (Json.obj ms)
                = .obj (ms.map (fun kv => (kv.1, simplifyMethodData nid kv.2))) by
              simp only [simplifyPathEntry, htab]] at h₁
            have h₂ : (match lookupStr m
                  (ms.map (fun kv => (kv.1, simplifyMethodData nid kv.2))) with
                | some (.obj mkvs) => lookupStr "operationId" mkvs
                | _ => none) = some v := h₁
            rw [lookupStr_map_snd] at h₂
            rcases hm : lookupStr m ms with _ | md
            · rw [hm] at h₂
              exact Option.noConfusion (show (none : Option Json) = some v from h₂)
            · rw [hm] at h₂
              simp only [Option.map_some'] at h₂
              cases md with
              | obj mkvs =>
                rcases hoid : lookupStr "operationId" mkvs with _ | w
                · rw [show simplifyMethodData nid (Json.obj mkvs) = Json.obj mkvs by
                    simp [simplifyMethodData, hoid]] at h₂
                  have h₃ : lookupStr "operationId" mkvs = some v := h₂
                  rw [hoid] at h₃
                  exact Option.noConfusion h₃
                · rw [show simplifyMethodData nid (Json.obj mkvs)
                      = .obj (objSet mkvs "operationId" (Json.str nid)) by
                    simp [simplifyMethodData, hoid]] at h₂
                  have h₃ : lookupStr "operationId" (objSet mkvs "operationId"
                      (Json.str nid)) = some v := h₂
                  rw [lookupStr_objSet_self] at h₃
                  injection h₃ with h₄
                  exact h₄.symm
              | null =>
                exact Option.noConfusion (show (none : Option Json) = some v from h₂)
              | bool b =>
                exact Option.noConfusion (show (none : Option Json) = some v from h₂)
              | num n =>
                exact Option.noConfusion (show (none : Option Json) = some v from h₂)
              | str s =>
                exact Option.noConfusion (show (none : Option Json) = some v from h₂)
              | arr items =>
                exact Option.noConfusion (show (none : Option Json) = some v from h₂)
          | null =>
            rw [show simplifyPathEntry p Json.null = Json.null by
              simp only [simplifyPathEntry, htab]] at h₁
            exact Option.noConfusion (show (none : Option Json) = some v from h₁)
          | bool b =>
            rw [show simplifyPathEntry p (Json.bool b) = Json.bool b by
              simp only [simplifyPathEntry, htab]] at h₁
            exact Option.noConfusion (show (none : Option Json) = some v from h₁)
          | num n =>
            rw [show simplifyPathEntry p (Json.num n) = Json.num n by
              simp only [simplifyPathEntry, htab]] at h₁
            exact Option.noConfusion (show (none : Option Json) = some v from h₁)
          | str s =>
            rw [show simplifyPathEntry p (Json.str s) = Json.str s by
              simp only [simplifyPathEntry, htab]] at h₁
            exact Option.noConfusion (show (none : Option Json) = some v from h₁)
          | arr items =>
            rw [show simplifyPathEntry p (Json.arr items) = Json.arr items by
              simp only [simplifyPathEntry, htab]] at h₁
            exact Option.noConfusion (show (none : Option Json) = some v from h₁)
      | null =>
        rw [show simplifyOperationIds (Json.obj kvs) = Json.obj kvs by
          simp only [simplifyOperationIds, hpaths]] at h
        rw [show operationIdAt (Json.obj kvs) p m = none by
          simp only [operationIdAt, hpaths]] at h
        exact Option.noConfusion h
      | bool b =>
        rw [show simplifyOperationIds (Json.obj kvs) = Json.obj kvs by
          simp only [simplifyOperationIds, hpaths]] at h
        rw [show operationIdAt (Json.obj kvs) p m = none by
          simp only [operationIdAt, hpaths]] at h
        exact Option.noConfusion h
      | num n =>
        rw [show simplifyOperationIds (Json.obj kvs) = Json.obj kvs by
          simp only [simplifyOperationIds, hpaths]] at h
        rw [show operationIdAt (Json.obj kvs) p m = none by
          simp only [operationIdAt, hpaths]] at h
        exact Option.noConfusion h
      | str s =>
        rw [show simplifyOperationIds (Json.obj kvs) = Json.obj kvs by
          simp only [simplifyOperationIds, hpaths]] at h
        rw [show operationIdAt (Json.obj kvs) p m = none by
          simp only [operationIdAt, hpaths]] at h
        exact Option.noConfusion h
      | arr items =>
        rw [show simplifyOperationIds (Json.obj kvs) = Json.obj kvs by
          simp only [simplifyOperationIds, hpaths]] at h
        rw [show operationIdAt (Json.obj kvs) p m = none by
          simp only [operationIdAt, hpaths]] at h
        exact Option.noConfusion h
  | null => exact Option.noConfusion (show (none : Option Json) = some v from h)
  | bool b => exact Option.noConfusion (show (none : Option Json) = some v from h)
  | num n => exact Option.noConfusion (show (none : Option Json) = some v from h)
  | str s => exact Option.noConfusion (show (none : Option Json) = some v from h)
  | arr items => exact Option.noConfusion (show (none : Option Json) = some v from h)

/-- C5 (amended): the pass performs no collision detection and returns the
rewritten spec silently; what does hold is that the mapping table is
injective, so after the pass two operations on distinct table paths can
never share an `operationId`; a path absent from the table keeps its data
unchanged, and every method of a table path that has an `operationId` has it
overwritten with the table's canonical id (so methods of one path share it). -/
theorem C5_canonical_id_uniqueness :
    (∀ (spec : Json) (p₁ p₂ m₁ m₂ i₁ i₂ : String) (v : Json),
        lookupAssoc p₁ pathToOperationId = some i₁ →
        lookupAssoc p₂ pathToOperationId = some i₂ → p₁ ≠ p₂ →
        operationIdAt (simplifyOperationIds spec) p₁ m₁ = some v →
        operationIdAt (simplifyOperationIds spec) p₂ m₂ = some v → False)
    ∧ (∀ (p : String) (pd : Json), lookupAssoc p pathToOperationId = none →
        simplifyPathEntry p pd = pd)
    ∧ (∀ (nid : String) (mkvs : List (String × Json)),
        (lookupStr "operationId" mkvs).isSome = true →
        simplifyMethodData nid (.obj mkvs) = .obj (objSet mkvs "operationId" (.str nid))) := by
  refine ⟨?_, ?_, ?_⟩
  · intro spec p₁ p₂ m₁ m₂ i₁ i₂ v h₁ h₂ hne hv₁ hv₂
    have e₁ := operationIdAt_simplify_table h₁ hv₁
    have e₂ := operationIdAt_simplify_table h₂ hv₂
    have : i₁ = i₂ := by
      have := e₁.symm.trans e₂
      injection this
    subst this
    have hnd : (pathToOperationId.map Prod.snd).Nodup := by decide
    exact hne (values_nodup_inj hnd (lookupAssoc_mem h₁) (lookupAssoc_mem h₂))
  · intro p pd h
    simp [simplifyPathEntry, h]
  · intro nid mkvs h
    simp [simplifyMethodData, h]

/-- C5 witness: a non-table path keeps its data; a method dict with an
`operationId` has it overwritten with the canonical id. -/
theorem C5_canonical_id_uniqueness_witness :
    simplifyPathEntry "/api/v2/unknown" (Json.obj []) = Json.obj []
      ∧ simplifyMethodData "metadata_dataset_get"
          (Json.obj [("operationId", Json.str "x")])
        = Json.obj (objSet [("operationId", Json.str "x")] "operationId"
            (Json.str "metadata_dataset_get")) :=
  ⟨C5_canonical_id_uniqueness.2.1 "/api/v2/unknown" (Json.obj []) rfl,
   C5_canonical_id_uniqueness.2.2 "metadata_dataset_get" [("operationId", Json.str "x")] rfl⟩

/-! ### Guidance injection (`server.py`, `_add_admin_level_guidance`) -/

/-- `admin_level_endpoints`: path fragments of data endpoints that get the
administrative-level guidance. -/
def admin_level_endpoints : List String :=
  ["affected-people", "baseline-population", "humanitarian-needs", "refugees",
   "idps", "returnees", "population", "food-security", "nutrition", "poverty",
   "conflict", "funding"]

/-- `location_endpoints`: path fragments of location metadata endpoints that
get the data-coverage warning. -/
def location_endpoints : List String := ["location", "admin1", "admin2"]

/-- `admin_level_guidance` advisory text (verbatim from the source; the
apostrophe is written as an escape). -/
def admin_level_guidance : String :=
  "\n\n🎯 **CRITICAL - Data Coverage Warning**: " ++
  "Data coverage is only determined by the metadata_data_availability_get tool. " ++
  "Just because a country is in the system doesn\x27t mean it has data. " ++
  "ALWAYS verify data availability before making data queries. " ++
  "\n\n🎯 **CRITICAL - Administrative Level Efficiency**: " ++
  "Before making aggregate queries (totals, country-wide statistics), " ++
  "ALWAYS check data availability using metadata_data_availability_get for the target country. " ++
  "Use the LOWEST available admin level (0=country, 1=state, " ++
  "2=district) to avoid downloading excessive granular data. " ++
  "For country totals, use admin level 0 if available, " ++
  "otherwise level 1. " ++
  "Never query admin level 2 for simple aggregations when level 0/1 is sufficient."

/-- `location_guidance` advisory text (verbatim from the source). -/
def location_guidance : String :=
  "\n\n⚠️ **CRITICAL - Data Coverage Warning**: " ++
  "Data coverage is only determined by the metadata_data_availability_get tool. " ++
  "Just because a country appears in location metadata doesn\x27t mean it has actual data. " ++
  "ALWAYS verify data availability using metadata_data_availability_get before making data queries."

/-- `pagination_guidance` advisory text (verbatim from the source). -/
def pagination_guidance : String :=
  "\n\n🔄 **Pagination**: You can page through results using `limit` and `offset` parameters " ++
  "(limit=records per page, offset=starting position)."

/-- Python `any(endpoint in path for endpoint in endpoints)`. -/
def matchesAnyEndpoint (path : String) (endpoints : List String) : Bool :=
  endpoints.any (fun e => strContains path e)

/-- The guarded append `if guidance not in text: text = text + guidance`. -/
def injectIfMissing (s g : String) : String :=
  if strContains s g then s else s ++ g

/-- Summary rewriting of one operation: the admin-level class takes
precedence over the location class (`if ... elif ...`), then the pagination
advisory is appended (when missing) to the updated summary. -/
def summaryTransform (path s : String) : String :=
  injectIfMissing
    (if matchesAnyEndpoint path admin_level_endpoints then
      injectIfMissing s admin_level_guidance
    else if matchesAnyEndpoint path location_endpoints then
      injectIfMissing s location_guidance
    else s)
    pagination_guidance

/-- Description rewriting of one operation without a summary: only the
location class is consulted (the admin-level class is not handled in this
branch of the source), then the pagination advisory is appended. -/
def descriptionTransform (path d : String) : String :=
  injectIfMissing
    (if matchesAnyEndpoint path location_endpoints then
      injectIfMissing d location_guidance
    else d)
    pagination_guidance

/-- Per-operation body of `_add_admin_level_guidance`: a dict with a string
`summary` has the summary rewritten; otherwise a dict with a string
`description` has the description rewritten; anything else is untouched.
(A non-string summary or description would raise `TypeError` in Python when
concatenated; such operations are left unchanged here.) -/
def addGuidanceToOperation (path : String) (op : Json) : Json :=
  match op with
  | .obj kvs =>
    match lookupStr "summary" kvs with
    | some (.str s) => .obj (objSet kvs "summary" (.str (summaryTransform path s)))
    | some _ => op
    | none =>
      match lookupStr "description" kvs with
      | some (.str d) =>
        .obj (objSet kvs "description" (.str (descriptionTransform path d)))
      | some _ => op
      | none => op
  | _ => op

/-- All methods of one path entry get the per-operation rewriting. -/
def addGuidanceToPathItem (path : String) (pd : Json) : Json :=
  match pd with
  | .obj ms => .obj (ms.map (fun kv => (kv.1, addGuidanceToOperation path kv.2)))
  | _ => pd

/-- One `paths` entry: a path containing `app-identifier` is skipped
(`if "app-identifier" in path: continue`), every other path is rewritten. -/
def addGuidanceToPathEntry (p : String) (pd : Json) : Json :=
  if strContains p "app-identifier" then pd else addGuidanceToPathItem p pd

/-- `_add_admin_level_guidance`: rewrite every entry of `spec["paths"]`. -/
def addAdminLevelGuidance (spec : Json) : Json :=
  match spec with
  | .obj kvs =>
    match lookupStr "paths" kvs with
    | some (.obj paths) =>
      .obj (objSet kvs "paths"
        (.obj (paths.map (fun kv => (kv.1, addGuidanceToPathEntry kv.1 kv.2)))))
    | _ => spec
  | _ => spec

theorem strContains_injectIfMissing_self (s g : String) :
    strContains (injectIfMissing s g) g = true := by
  unfold injectIfMissing
  split
  · next h => exact h
  · exact strContains_append_self s g

theorem strContains_injectIfMissing_mono {s g' : String} (g : String)
    (h : strContains s g' = true) : strContains (injectIfMissing s g) g' = true := by
  unfold injectIfMissing
  split
  · exact h
  · exact strContains_append_left g h

theorem injectIfMissing_of_contains {s g : String} (h : strContains s g = true) :
    injectIfMissing s g = s := by
  simp [injectIfMissing, h]

theorem summaryTransform_idem (path s : String) :
    summaryTransform path (summaryTransform path s) = summaryTransform path s := by
  unfold summaryTransform
  cases hA : matchesAnyEndpoint path admin_level_endpoints with
  | true =>
    simp only [hA, if_true]
    rw [injectIfMissing_of_contains
      (strContains_injectIfMissing_mono pagination_guidance
        (strContains_injectIfMissing_self s admin_level_guidance))]
    rw [injectIfMissing_of_contains
      (strContains_injectIfMissing_self (injectIfMissing s admin_level_guidance)
        pagination_guidance)]
  | false =>
    cases hL : matchesAnyEndpoint path location_endpoints with
    | true =>
      simp only [hA, hL, Bool.false_eq_true, if_false, if_true]
      rw [injectIfMissing_of_contains
        (strContains_injectIfMissing_mono pagination_guidance
          (strContains_injectIfMissing_self s location_guidance))]
      rw [injectIfMissing_of_contains
        (strContains_injectIfMissing_self (injectIfMissing s location_guidance)
          pagination_guidance)]
    | false =>
      simp only [hA, hL, Bool.false_eq_true, if_false]
      rw [injectIfMissing_of_contains
        (strContains_injectIfMissing_self s pagination_guidance)]

theorem descriptionTransform_idem (path d : String) :
    descriptionTransform path (descriptionTransform path d) = descriptionTransform path d := by
  unfold descriptionTransform
  cases hL : matchesAnyEndpoint path location_endpoints with
  | true =>
    simp only [hL, if_true]
    rw [injectIfMissing_of_contains
      (strContains_injectIfMissing_mono pagination_guidance
        (strContains_injectIfMissing_self d location_guidance))]
    rw [injectIfMissing_of_contains
      (strContains_injectIfMissing_self (injectIfMissing d location_guidance)
        pagination_guidance)]
  | false =>
    simp only [hL, Bool.false_eq_true, if_false]
    rw [injectIfMissing_of_contains
      (strContains_injectIfMissing_self d pagination_guidance)]

theorem objSet_objSet (l : List (String × Json)) (k : String) (v w : Json) :
    objSet (objSet l k v) k w = objSet l k w := by
  induction l with
  | nil => simp [objSet]
  | cons kv rest ih =>
    obtain ⟨k₁, v₁⟩ := kv
    by_cases h : k₁ = k <;> simp [objSet, h, ih]

theorem addGuidanceToOperation_idem (path : String) (op : Json) :
    addGuidanceToOperation path (addGuidanceToOperation path op)
      = addGuidanceToOperation path op := by
  cases op with
  | obj kvs =>
    rcases hs : lookupStr "summary" kvs with _ | sv
    · rcases hd : lookupStr "description" kvs with _ | dv
      · simp only [addGuidanceToOperation, hs, hd]
      · cases dv with
        | str d =>
          simp only [addGuidanceToOperation, hs, hd]
          have hs' : lookupStr "summary" (objSet kvs "description"
              (.str (descriptionTransform path d))) = none := by
            rw [lookupStr_objSet_other _ _ (by decide : "summary" ≠ "description")]
            exact hs
          simp only [addGuidanceToOperation, hs', lookupStr_objSet_self,
            descriptionTransform_idem, objSet_objSet]
        | null => simp only [addGuidanceToOperation, hs, hd]
        | bool b => simp only [addGuidanceToOperation, hs, hd]
        | num n => simp only [addGuidanceToOperation, hs, hd]
        | arr items => simp only [addGuidanceToOperation, hs, hd]
        | obj o => simp only [addGuidanceToOperation, hs, hd]
    · cases sv with
      | str s =>
        simp only [addGuidanceToOperation, hs]
        simp only [addGuidanceToOperation, lookupStr_objSet_self,
          summaryTransform_idem, objSet_objSet]
      | null => simp only [addGuidanceToOperation, hs]
      | bool b => simp only [addGuidanceToOperation, hs]
      | num n => simp only [addGuidanceToOperation, hs]
      | arr items => simp only [addGuidanceToOperation, hs]
      | obj o => simp only [addGuidanceToOperation, hs]
  | null => rfl
  | bool b => rfl
  | num n => rfl
  | str s => rfl
  | arr items => rfl

theorem addGuidanceToPathItem_idem (path : String) (pd : Json) :
    addGuidanceToPathItem path (addGuidanceToPathItem path pd)
      = addGuidanceToPathItem path pd := by
  cases pd with
  | obj ms =>
    simp only [addGuidanceToPathItem, List.map_map]
    refine congrArg Json.obj (List.map_congr_left ?_)
    intro kv _
    simp [Function.comp, addGuidanceToOperation_idem]
  | null => rfl
  | bool b => rfl
  | num n => rfl
  | str s => rfl
  | arr items => rfl

theorem addGuidanceToPathEntry_idem (p : String) (pd : Json) :
    addGuidanceToPathEntry p (addGuidanceToPathEntry p pd)
      = addGuidanceToPathEntry p pd := by
  unfold addGuidanceToPathEntry
  split
  · rfl
  · exact addGuidanceToPathItem_idem p pd

/-- C2: the guidance injector is idempotent on whole specifications — and
hence on every operation's summary and description text: running
`_add_admin_level_guidance` twice produces exactly the output of running it
once, because every advisory string is appended only when that exact string
is not already contained in the field. -/
theorem C2_guidance_injection_idempotent (spec : Json) :
    addAdminLevelGuidance (addAdminLevelGuidance spec) = addAdminLevelGuidance spec := by
  cases spec with
  | obj kvs =>
    rcases hp : lookupStr "paths" kvs with _ | pv
    · simp only [addAdminLevelGuidance, hp]
    · cases pv with
      | obj paths =>
        simp only [addAdminLevelGuidance, hp, lookupStr_objSet_self, objSet_objSet,
          List.map_map]
        refine congrArg Json.obj (congrArg (objSet kvs "paths")
          (congrArg Json.obj (List.map_congr_left ?_)))
        intro kv _
        simp [Function.comp, addGuidanceToPathEntry_idem]
      | null => simp only [addAdminLevelGuidance, hp]
      | bool b => simp only [addAdminLevelGuidance, hp]
      | num n => simp only [addAdminLevelGuidance, hp]
      | str s => simp only [addAdminLevelGuidance, hp]
      | arr items => simp only [addAdminLevelGuidance, hp]
  | null => rfl
  | bool b => rfl
  | num n => rfl
  | str s => rfl
  | arr items => rfl

/-- C6 (amended): per-operation guidance classification.  At most one
primary class is selected, admin-level patterns taking precedence over
location patterns; on an operation with a (fresh) summary the selected
class advisory and then the pagination advisory are appended to the
summary; on an operation without a summary but with a description, only the
location class is consulted — an admin-matching path gets no class advisory
in its description, only the pagination advisory — and the location
advisory plus pagination advisory are appended when the location class
matches. -/
theorem C6_guidance_classification (path : String) (kvs : List (String × Json))
    (s d : String) :
    (matchesAnyEndpoint path admin_level_endpoints = true →
      strContains s admin_level_guidance = false →
      strContains (s ++ admin_level_guidance) pagination_guidance = false →
      lookupStr "summary" kvs = some (.str s) →
      addGuidanceToOperation path (.obj kvs)
        = .obj (objSet kvs "summary"
            (.str ((s ++ admin_level_guidance) ++ pagination_guidance))))
    ∧ (matchesAnyEndpoint path admin_level_endpoints = false →
      matchesAnyEndpoint path location_endpoints = true →
      strContains s location_guidance = false →
      strContains (s ++ location_guidance) pagination_guidance = false →
      lookupStr "summary" kvs = some (.str s) →
      addGuidanceToOperation path (.obj kvs)
        = .obj (objSet kvs "summary"
            (.str ((s ++ location_guidance) ++ pagination_guidance))))
    ∧ (matchesAnyEndpoint path admin_level_endpoints = false →
      matchesAnyEndpoint path location_endpoints = false →
      strContains s pagination_guidance = false →
      lookupStr "summary" kvs = some (.str s) →
      addGuidanceToOperation path (.obj kvs)
        = .obj (objSet kvs "summary" (.str (s ++ pagination_guidance))))
    ∧ (lookupStr "summary" kvs = none →
      lookupStr "description" kvs = some (.str d) →
      matchesAnyEndpoint path location_endpoints = false →
      strContains d pagination_guidance = false →
      addGuidanceToOperation path (.obj kvs)
        = .obj (objSet kvs "description" (.str (d ++ pagination_guidance))))
    ∧ (lookupStr "summary" kvs = none →
      lookupStr "description" kvs = some (.str d) →
      matchesAnyEndpoint path location_endpoints = true →
      strContains d location_guidance = false →
      strContains (d ++ location_guidance) pagination_guidance = false →
      addGuidanceToOperation path (.obj kvs)
        = .obj (objSet kvs "description"
            (.str ((d ++ location_guidance) ++ pagination_guidance)))) := by
  refine ⟨?_, ?_, ?_, ?_, ?_⟩
  · intro hA hc1 hc2 hsum
    simp only [addGuidanceToOperation, hsum, summaryTransform, hA, if_true,
      injectIfMissing, hc1, hc2, Bool.false_eq_true, if_false]
  · intro hA hL hc1 hc2 hsum
    simp only [addGuidanceToOperation, hsum, summaryTransform, hA, hL, if_true,
      injectIfMissing, hc1, hc2, Bool.false_eq_true, if_false]
  · intro hA hL hc hsum
    simp only [addGuidanceToOperation, hsum, summaryTransform, hA, hL,
      injectIfMissing, hc, Bool.false_eq_true, if_false]
  · intro hsum hdesc hL hc
    simp only [addGuidanceToOperation, hsum, hdesc, descriptionTransform, hL,
      injectIfMissing, hc, Bool.false_eq_true, if_false]
  · intro hsum hdesc hL hc1 hc2
    simp only [addGuidanceToOperation, hsum, hdesc, descriptionTransform, hL, if_true,
      injectIfMissing, hc1, hc2, Bool.false_eq_true, if_false]

/-- Path of an admin-level data endpoint used in the C6 example. -/
def pathC6 : String := "/api/v2/affected-people/idps"

set_option maxRecDepth 400000 in
/-- C6 counterexample: an operation on an admin-level path with no summary
but a description.  The classification selects the admin-level class for
this path, yet the output description receives only the pagination
advisory — the selected class advisory is not appended to the description,
contradicting the claim. -/
theorem C6_counterexample :
    matchesAnyEndpoint pathC6 admin_level_endpoints = true
      ∧ addGuidanceToOperation pathC6 (Json.obj [("description", Json.str "x")])
        = Json.obj [("description", Json.str ("x" ++ pagination_guidance))]
      ∧ strContains ("x" ++ pagination_guidance) admin_level_guidance = false := by
  refine ⟨by decide, rfl, by decide⟩

set_option maxRecDepth 400000 in
/-- C6 witness: on the admin-level path with a fresh summary, the admin
advisory and then the pagination advisory are appended to the summary. -/
theorem C6_guidance_classification_witness :
    addGuidanceToOperation pathC6 (Json.obj [("summary", Json.str "")])
      = Json.obj (objSet [("summary", Json.str "")] "summary"
          (Json.str (("" ++ admin_level_guidance) ++ pagination_guidance))) :=
  (C6_guidance_classification pathC6 [("summary", Json.str "")] "" "").1
    (by decide) (by decide) (by decide) rfl

/-! ### Parameter default overrides (`server.py`, `_fix_openapi_schema_references`,
the per-parameter name-match block) -/

/-- `param["schema"]["default"] = v` guarded by `if "schema" in param`.
(Python raises `TypeError` when the schema value is not a dict; `jsonSet`
leaves such values unchanged.) -/
def setSchemaDefault (kvs : List (String × Json)) (v : Json) : Json :=
  match lookupStr "schema" kvs with
  | some sch => .obj (objSet kvs "schema" (jsonSet sch "default" v))
  | none => .obj kvs

/-- The name-match default policy applied to one parameter dict:
`limit` gets default `10`, `age_range` gets default `"all"`, `gender` gets
default `"all"`; every other parameter is untouched.  (Python compares
`param.get("name")` with `==`, which is true only for an equal string.) -/
def updateParamDefaults (param : Json) : Json :=
  match param with
  | .obj kvs =>
    match lookupStr "name" kvs with
    | some (.str n) =>
      if n = "limit" then setSchemaDefault kvs (.num 10)
      else if n = "age_range" then setSchemaDefault kvs (.str "all")
      else if n = "gender" then setSchemaDefault kvs (.str "all")
      else param
    | _ => param
  | _ => param

/-- C7: the default override is strictly by parameter-name match: a
parameter named `limit` with a schema gets default `10`, `age_range` and
`gender` with a schema get default `"all"`, and a parameter with any other
name — or with no name — is returned completely unchanged, regardless of
its schema. -/
theorem C7_default_overrides_by_name (kvs : List (String × Json)) (sch : Json)
    (n : String) :
    (lookupStr "name" kvs = some (.str "limit") →
      lookupStr "schema" kvs = some sch →
      updateParamDefaults (.obj kvs)
        = .obj (objSet kvs "schema" (jsonSet sch "default" (.num 10))))
    ∧ (lookupStr "name" kvs = some (.str "age_range") →
      lookupStr "schema" kvs = some sch →
      updateParamDefaults (.obj kvs)
        = .obj (objSet kvs "schema" (jsonSet sch "default" (.str "all"))))
    ∧ (lookupStr "name" kvs = some (.str "gender") →
      lookupStr "schema" kvs = some sch →
      updateParamDefaults (.obj kvs)
        = .obj (objSet kvs "schema" (jsonSet sch "default" (.str "all"))))
    ∧ (lookupStr "name" kvs = some (.str n) →
      n ≠ "limit" → n ≠ "age_range" → n ≠ "gender" →
      updateParamDefaults (.obj kvs) = .obj kvs)
    ∧ (lookupStr "name" kvs = none →
      updateParamDefaults (.obj kvs) = .obj kvs) := by
  refine ⟨?_, ?_, ?_, ?_, ?_⟩
  · intro hname hsch
    simp only [updateParamDefaults, hname, setSchemaDefault, hsch, if_true]
  · intro hname hsch
    simp only [updateParamDefaults, hname]
    rw [if_neg (by decide : ¬("age_range" = "limit"))]
    simp [setSchemaDefault, hsch]
  · intro hname hsch
    simp only [updateParamDefaults, hname]
    rw [if_neg (by decide : ¬("gender" = "limit")),
      if_neg (by decide : ¬("gender" = "age_range"))]
    simp [setSchemaDefault, hsch]
  · intro hname h1 h2 h3
    simp only [updateParamDefaults, hname, h1, h2, h3, if_false]
  · intro hname
    simp only [updateParamDefaults, hname]

/-- C7 witness: a `limit` parameter has its declared default overwritten
with `10`; an `offset` parameter is returned unchanged. -/
theorem C7_default_overrides_by_name_witness :
    updateParamDefaults (Json.obj [("name", Json.str "limit"),
        ("schema", Json.obj [("default", Json.num 100)])])
      = Json.obj (objSet [("name", Json.str "limit"),
          ("schema", Json.obj [("default", Json.num 100)])] "schema"
          (jsonSet (Json.obj [("default", Json.num 100)]) "default" (Json.num 10)))
    ∧ updateParamDefaults (Json.obj [("name", Json.str "offset"),
        ("schema", Json.obj [("default", Json.num 0)])])
      = Json.obj [("name", Json.str "offset"), ("schema", Json.obj [("default", Json.num 0)])] :=
  ⟨(C7_default_overrides_by_name _ (Json.obj [("default", Json.num 100)]) "limit").1
      rfl rfl,
   (C7_default_overrides_by_name _ Json.null "offset").2.2.2.1
      rfl (by decide) (by decide) (by decide)⟩

/-! ### HTTP client configuration and component customization
(`server.py`, `_create_http_client`, `_create_app_identifier`,
`_customize_mcp_components`) -/

/-- UTF-8 encoding of one character (Python `str.encode()`), bytes as `Nat`. -/
def utf8EncodeChar (c : Char) : List Nat :=
  let n := c.toNat
  if n < 128 then [n]
  else if n < 2048 then [192 + n / 64, 128 + n % 64]
  else if n < 65536 then [224 + n / 4096, 128 + (n / 64) % 64, 128 + n % 64]
  else [240 + n / 262144, 128 + (n / 4096) % 64, 128 + (n / 64) % 64, 128 + n % 64]

/-- UTF-8 encoding of a string. -/
def utf8Encode (s : String) : List Nat := (s.data.map utf8EncodeChar).flatten

/-- The standard base64 alphabet. -/
def base64Alphabet : List Char :=
  "ABCDEFGHIJKLMNOPQRSTUVWXYZabcdefghijklmnopqrstuvwxyz0123456789+/".data

/-- Character for one six-bit group. -/
def base64Char (n : Nat) : Char := base64Alphabet.getD n 'A'

/-- Standard base64 encoding with `=` padding (Python `base64.b64encode`). -/
def base64Encode : List Nat → List Char
  | [] => []
  | [b1] => [base64Char (b1 / 4), base64Char (b1 % 4 * 16), '=', '=']
  | [b1, b2] =>
    [base64Char (b1 / 4), base64Char (b1 % 4 * 16 + b2 / 16), base64Char (b2 % 16 * 4), '=']
  | b1 :: b2 :: b3 :: rest =>
    [base64Char (b1 / 4), base64Char (b1 % 4 * 16 + b2 / 16),
     base64Char (b2 % 16 * 4 + b3 / 64), base64Char (b3 % 64)] ++ base64Encode rest

/-- `_create_app_identifier`: base64 of `f"{app_name}:{app_email}"`. -/
def createAppIdentifier (appName appEmail : String) : String :=
  String.mk (base64Encode (utf8Encode (appName ++ ":" ++ appEmail)))

/-- Configuration of the authenticated HTTP client built by
`_create_http_client` (the float timeout is outside this embedding; the
rate-limiting wrapper forwards these fields unchanged). -/
structure ClientConfig where
  baseUrl : String
  headers : List (String × String)
  params : List (String × String)
deriving Repr

/-- `_create_http_client`: headers and the constant default query
parameter `app_identifier` attached to every outgoing request. -/
def createHttpClient (apiKey baseUrl appName appEmail : String) : ClientConfig :=
  { baseUrl := baseUrl,
    headers := [("X-HDX-HAPI-APP-IDENTIFIER", apiKey),
      ("Content-Type", "application/json"),
      ("Accept", "application/json")],
    params := [("app_identifier", createAppIdentifier appName appEmail)] }

/-- An MCP component as seen by `_customize_mcp_components`: its class name,
its name, and its `parameters` attribute (the advertised input schema). -/
structure Component where
  className : String
  name : String
  parameters : Option Json
deriving Repr

/-- Python `"app_identifier" in required` for a JSON list: some element is
that exact string. -/
def jsonHasStrElem : List Json → String → Bool
  | [], _ => false
  | j :: rest, t =>
    (match j with | .str s => decide (s = t) | _ => false) || jsonHasStrElem rest t

/-- Python `required.remove("app_identifier")`: drop the first element equal
to the string. -/
def eraseFirstStr : List Json → String → List Json
  | [], _ => []
  | j :: rest, t =>
    match j with
    | .str s => if s = t then rest else j :: eraseFirstStr rest t
    | _ => j :: eraseFirstStr rest t

/-- Number of elements equal to the given string. -/
def countStrElem : List Json → String → Nat
  | [], _ => 0
  | j :: rest, t =>
    (match j with | .str s => if s = t then 1 else 0 | _ => 0) + countStrElem rest t

/-- The `properties` step of `_customize_mcp_components`:
`properties = component.parameters.get("properties", {})`;
`if "app_identifier" in properties: del properties["app_identifier"]`.
`Except.error` marks the points where Python raises inside the function's
single swallowed `try/except`: `in` on a number, bool or `None` raises
`TypeError`; on a list or string the membership test succeeds, and when it
is positive the `del` raises (`TypeError`).  A dict never raises here. -/
def stripPropertiesEntry (kvs : List (String × Json)) :
    Except Unit (List (String × Json)) :=
  match lookupStr "properties" kvs with
  | some (.obj props) =>
    if (lookupStr "app_identifier" props).isSome then
      .ok (objSet kvs "properties" (.obj (objDel props "app_identifier")))
    else .ok kvs
  | some (.arr items) =>
    if jsonHasStrElem items "app_identifier" then .error () else .ok kvs
  | some (.str s) =>
    if strContains s "app_identifier" then .error () else .ok kvs
  | some _ => .error ()
  | none => .ok kvs

/-- The `required` step of `_customize_mcp_components`:
`required = component.parameters.get("required", [])`;
`if "app_identifier" in required: required.remove("app_identifier");
component.parameters["required"] = required`.  `list.remove` drops only the
first occurrence.  `Except.error` marks the points where Python raises
inside the swallowed `try/except`: `in` on a number, bool or `None`
(`TypeError`); a positive membership on a string (substring) or a dict
(key) followed by `.remove`, which neither has (`AttributeError`). -/
def stripRequiredEntry (kvs : List (String × Json)) :
    Except Unit (List (String × Json)) :=
  match lookupStr "required" kvs with
  | some (.arr req) =>
    if jsonHasStrElem req "app_identifier" then
      .ok (objSet kvs "required" (.arr (eraseFirstStr req "app_identifier")))
    else .ok kvs
  | some (.str s) =>
    if strContains s "app_identifier" then .error () else .ok kvs
  | some (.obj o) =>
    if (lookupStr "app_identifier" o).isSome then .error () else .ok kvs
  | some _ => .error ()
  | none => .ok kvs

/-- `_customize_mcp_components`: only components whose class name contains
`"Tool"` and whose `parameters` are a truthy (non-empty) dict are modified:
the `app_identifier` property is deleted, then the first `app_identifier`
entry of `required` is removed.  Both steps run inside one `try/except`
that swallows the exception: if the properties step raises, the required
step is skipped and the component is left as it was (the raise happens
before any mutation); if the required step raises, the properties-step
mutation is kept. -/
def customizeComponent (c : Component) : Component :=
  if strContains c.className "Tool" then
    match c.parameters with
    | some (.obj kvs) =>
      if kvs.isEmpty then c
      else
        match stripPropertiesEntry kvs with
        | .error _ => c
        | .ok kvs₁ =>
          match stripRequiredEntry kvs₁ with
          | .error _ => { c with parameters := some (.obj kvs₁) }
          | .ok kvs₂ => { c with parameters := some (.obj kvs₂) }
    | _ => c
  else c

/-- The advertised `properties` of a component's input schema. -/
def propertiesOf (c : Component) : Option Json :=
  match c.parameters with
  | some (.obj kvs) => lookupStr "properties" kvs
  | _ => none

/-- The advertised `required` list of a component's input schema. -/
def requiredOf (c : Component) : Option Json :=
  match c.parameters with
  | some (.obj kvs) => lookupStr "required" kvs
  | _ => none

/-- A tool component whose `required` list names `app_identifier` twice. -/
def componentC9 : Component :=
  { className := "OpenAPITool", name := "tool",
    parameters := some (.obj
      [("properties", .obj [("app_identifier", .obj []), ("x", .obj [])]),
       ("required", .arr [.str "app_identifier", .str "app_identifier"])]) }

/-- C9 counterexample: `required.remove` drops only the first occurrence,
so after customization the advertised `required` list of this tool still
contains `app_identifier` — the claim's "never contain" fails (the
`properties` dict, whose keys are unique, is stripped correctly). -/
theorem C9_counterexample :
    requiredOf (customizeComponent componentC9) = some (.arr [Json.str "app_identifier"])
      ∧ jsonHasStrElem [Json.str "app_identifier"] "app_identifier" = true
      ∧ propertiesOf (customizeComponent componentC9) = some (.obj [("x", .obj [])]) :=
  ⟨rfl, by decide, rfl⟩

theorem lookupStr_eq_none_of_notmem {k : String} {l : List (String × Json)}
    (h : ∀ kv ∈ l, kv.1 ≠ k) : lookupStr k l = none := by
  induction l with
  | nil => rfl
  | cons kv rest ih =>
    have hk : kv.1 ≠ k := h kv (List.mem_cons_self kv rest)
    show (if kv.1 = k then some kv.2 else lookupStr k rest) = none
    rw [if_neg hk]
    exact ih (fun kv' h' => h kv' (List.mem_cons_of_mem _ h'))

theorem lookupStr_objDel_self {l : List (String × Json)} {k : String}
    (hnd : keysNodup l = true) : lookupStr k (objDel l k) = none := by
  induction l with
  | nil => rfl
  | cons kv rest ih =>
    obtain ⟨k₁, v₁⟩ := kv
    rw [show keysNodup ((k₁, v₁) :: rest)
          = (!(rest.any (fun kv => kv.1 == k₁)) && keysNodup rest) from rfl,
        Bool.and_eq_true] at hnd
    by_cases hk : k₁ = k
    · subst hk
      rw [show objDel ((k₁, v₁) :: rest) k₁ = rest by simp [objDel]]
      refine lookupStr_eq_none_of_notmem ?_
      have h1 := hnd.1
      simp only [Bool.not_eq_true', List.any_eq_false] at h1
      intro kv hkv
      simpa using h1 kv hkv
    · rw [show objDel ((k₁, v₁) :: rest) k = (k₁, v₁) :: objDel rest k by
          simp [objDel, hk]]
      simp only [lookupStr, hk, if_false]
      exact ih hnd.2

theorem jsonHasStrElem_eq_false_of_count_zero {t : String} {l : List Json}
    (h : countStrElem l t = 0) : jsonHasStrElem l t = false := by
  induction l with
  | nil => rfl
  | cons j rest ih =>
    cases j with
    | str s =>
      have h1 : (if s = t then 1 else 0) + countStrElem rest t = 0 := h
      show (decide (s = t) || jsonHasStrElem rest t) = false
      by_cases hs : s = t
      · rw [if_pos hs] at h1
        exact absurd h1 (by omega)
      · rw [if_neg hs] at h1
        rw [ih (by omega)]
        simp [hs]
    | null =>
      show (false || jsonHasStrElem rest t) = false
      rw [Bool.false_or]
      exact ih (by simpa [countStrElem] using h)
    | bool b =>
      show (false || jsonHasStrElem rest t) = false
      rw [Bool.false_or]
      exact ih (by simpa [countStrElem] using h)
    | num n =>
      show (false || jsonHasStrElem rest t) = false
      rw [Bool.false_or]
      exact ih (by simpa [countStrElem] using h)
    | arr items =>
      show (false || jsonHasStrElem rest t) = false
      rw [Bool.false_or]
      exact ih (by simpa [countStrElem] using h)
    | obj o =>
      show (false || jsonHasStrElem rest t) = false
      rw [Bool.false_or]
      exact ih (by simpa [countStrElem] using h)

theorem jsonHasStrElem_eraseFirst {t : String} {l : List Json}
    (h : countStrElem l t ≤ 1) : jsonHasStrElem (eraseFirstStr l t) t = false := by
  induction l with
  | nil => rfl
  | cons j rest ih =>
    cases j with
    | str s =>
      by_cases hs : s = t
      · rw [show eraseFirstStr (Json.str s :: rest) t = rest by
            simp [eraseFirstStr, hs]]
        refine jsonHasStrElem_eq_false_of_count_zero ?_
        have h' : (if s = t then 1 else 0) + countStrElem rest t ≤ 1 := h
        rw [if_pos hs] at h'
        omega
      · rw [show eraseFirstStr (Json.str s :: rest) t
              = Json.str s :: eraseFirstStr rest t by simp [eraseFirstStr, hs]]
        show (decide (s = t) || jsonHasStrElem (eraseFirstStr rest t) t) = false
        have h' : (if s = t then 1 else 0) + countStrElem rest t ≤ 1 := h
        rw [if_neg hs] at h'
        rw [ih (by omega)]
        simp [hs]
    | null =>
      show (false || jsonHasStrElem (eraseFirstStr rest t) t) = false
      rw [Bool.false_or]
      exact ih (by simpa [countStrElem] using h)
    | bool b =>
      show (false || jsonHasStrElem (eraseFirstStr rest t) t) = false
      rw [Bool.false_or]
      exact ih (by simpa [countStrElem] using h)
    | num n =>
      show (false || jsonHasStrElem (eraseFirstStr rest t) t) = false
      rw [Bool.false_or]
      exact ih (by simpa [countStrElem] using h)
    | arr items =>
      show (false || jsonHasStrElem (eraseFirstStr rest t) t) = false
      rw [Bool.false_or]
      exact ih (by simpa [countStrElem] using h)
    | obj o =>
      show (false || jsonHasStrElem (eraseFirstStr rest t) t) = false
      rw [Bool.false_or]
      exact ih (by simpa [countStrElem] using h)

theorem lookup_properties_stripRequired {l l' : List (String × Json)}
    (h : stripRequiredEntry l = .ok l') :
    lookupStr "properties" l' = lookupStr "properties" l := by
  unfold stripRequiredEntry at h
  rcases hr : lookupStr "required" l with _ | v
  · rw [hr] at h
    injection h with h'
    subst h'
    rfl
  · rw [hr] at h
    cases v with
    | arr req =>
      have h₁ : (if jsonHasStrElem req "app_identifier" = true then
          (Except.ok (objSet l "required" (Json.arr (eraseFirstStr req "app_identifier")))
            : Except Unit (List (String × Json)))
          else .ok l) = .ok l' := h
      by_cases hx : jsonHasStrElem req "app_identifier" = true
      · rw [if_pos hx] at h₁
        injection h₁ with h'
        subst h'
        rw [lookupStr_objSet_other _ _ (by decide : "properties" ≠ "required")]
      · rw [if_neg hx] at h₁
        injection h₁ with h'
        subst h'
        rfl
    | str s =>
      have h₁ : (if strContains s "app_identifier" = true then
          (Except.error () : Except Unit (List (String × Json))) else .ok l) = .ok l' := h
      by_cases hx : strContains s "app_identifier" = true
      · rw [if_pos hx] at h₁
        exact Except.noConfusion h₁
      · rw [if_neg hx] at h₁
        injection h₁ with h'
        subst h'
        rfl
    | obj o =>
      have h₁ : (if (lookupStr "app_identifier" o).isSome = true then
          (Except.error () : Except Unit (List (String × Json))) else .ok l) = .ok l' := h
      by_cases hx : (lookupStr "app_identifier" o).isSome = true
      · rw [if_pos hx] at h₁
        exact Except.noConfusion h₁
      · rw [if_neg hx] at h₁
        injection h₁ with h'
        subst h'
        rfl
    | null =>
      exact Except.noConfusion (show (Except.error () : Except Unit _) = .ok l' from h)
    | bool b =>
      exact Except.noConfusion (show (Except.error () : Except Unit _) = .ok l' from h)
    | num n =>
      exact Except.noConfusion (show (Except.error () : Except Unit _) = .ok l' from h)

theorem lookup_required_stripProperties {l l' : List (String × Json)}
    (h : stripPropertiesEntry l = .ok l') :
    lookupStr "required" l' = lookupStr "required" l := by
  unfold stripPropertiesEntry at h
  rcases hp : lookupStr "properties" l with _ | v
  · rw [hp] at h
    injection h with h'
    subst h'
    rfl
  · rw [hp] at h
    cases v with
    | obj props =>
      have h₁ : (if (lookupStr "app_identifier" props).isSome = true then
          (Except.ok (objSet l "properties" (Json.obj (objDel props "app_identifier")))
            : Except Unit (List (String × Json)))
          else .ok l) = .ok l' := h
      by_cases hAI : (lookupStr "app_identifier" props).isSome = true
      · rw [if_pos hAI] at h₁
        injection h₁ with h'
        subst h'
        rw [lookupStr_objSet_other _ _ (by decide : "required" ≠ "properties")]
      · rw [if_neg hAI] at h₁
        injection h₁ with h'
        subst h'
        rfl
    | arr items =>
      have h₁ : (if jsonHasStrElem items "app_identifier" = true then
          (Except.error () : Except Unit (List (String × Json))) else .ok l) = .ok l' := h
      by_cases hx : jsonHasStrElem items "app_identifier" = true
      · rw [if_pos hx] at h₁
        exact Except.noConfusion h₁
      · rw [if_neg hx] at h₁
        injection h₁ with h'
        subst h'
        rfl
    | str s =>
      have h₁ : (if strContains s "app_identifier" = true then
          (Except.error () : Except Unit (List (String × Json))) else .ok l) = .ok l' := h
      by_cases hx : strContains s "app_identifier" = true
      · rw [if_pos hx] at h₁
        exact Except.noConfusion h₁
      · rw [if_neg hx] at h₁
        injection h₁ with h'
        subst h'
        rfl
    | null =>
      exact Except.noConfusion (show (Except.error () : Except Unit _) = .ok l' from h)
    | bool b =>
      exact Except.noConfusion (show (Except.error () : Except Unit _) = .ok l' from h)
    | num n =>
      exact Except.noConfusion (show (Except.error () : Except Unit _) = .ok l' from h)

theorem stripProperties_removes {kvs props : List (String × Json)}
    (hProps : lookupStr "properties" kvs = some (.obj props))
    (hnd : keysNodup props = true) :
    ∃ kvs₁ props', stripPropertiesEntry kvs = .ok kvs₁
      ∧ lookupStr "properties" kvs₁ = some (.obj props')
      ∧ lookupStr "app_identifier" props' = none := by
  suffices hs : ∃ kvs₁ props',
      (if (lookupStr "app_identifier" props).isSome = true then
        (Except.ok (objSet kvs "properties" (Json.obj (objDel props "app_identifier")))
          : Except Unit (List (String × Json)))
      else .ok kvs) = .ok kvs₁
      ∧ lookupStr "properties" kvs₁ = some (.obj props')
      ∧ lookupStr "app_identifier" props' = none by
    unfold stripPropertiesEntry
    rw [hProps]
    exact hs
  cases hAI : (lookupStr "app_identifier" props).isSome with
  | true =>
    rw [if_pos rfl]
    exact ⟨_, objDel props "app_identifier", rfl,
      lookupStr_objSet_self kvs "properties" _, lookupStr_objDel_self hnd⟩
  | false =>
    rw [if_neg (by decide : ¬(false = true))]
    refine ⟨kvs, props, rfl, hProps, ?_⟩
    cases hx : lookupStr "app_identifier" props with
    | none => rfl
    | some w =>
      rw [hx] at hAI
      exact Bool.noConfusion hAI

theorem stripRequired_removes {l : List (String × Json)} {req : List Json}
    (hReq : lookupStr "required" l = some (.arr req))
    (hcount : countStrElem req "app_identifier" ≤ 1) :
    ∃ l' req', stripRequiredEntry l = .ok l'
      ∧ lookupStr "required" l' = some (.arr req')
      ∧ jsonHasStrElem req' "app_identifier" = false := by
  suffices hs : ∃ l' req',
      (if jsonHasStrElem req "app_identifier" = true then
        (Except.ok (objSet l "required" (Json.arr (eraseFirstStr req "app_identifier")))
          : Except Unit (List (String × Json)))
      else .ok l) = .ok l'
      ∧ lookupStr "required" l' = some (.arr req')
      ∧ jsonHasStrElem req' "app_identifier" = false by
    unfold stripRequiredEntry
    rw [hReq]
    exact hs
  cases hHas : jsonHasStrElem req "app_identifier" with
  | true =>
    rw [if_pos rfl]
    exact ⟨_, eraseFirstStr req "app_identifier", rfl,
      lookupStr_objSet_self l "required" _, jsonHasStrElem_eraseFirst hcount⟩
  | false =>
    rw [if_neg (by decide : ¬(false = true))]
    exact ⟨l, req, rfl, hReq, hHas⟩

/-- C9 (amended): for every tool component with a truthy parameters dict,
customization leaves `properties` without an `app_identifier` key (given
the dict-key uniqueness Python guarantees), whether or not the subsequent
required step raises; and — provided the properties step does not raise,
for which a `properties` entry that is absent or a dict suffices, since an
exception there is swallowed and skips the required step entirely — the
first `app_identifier` occurrence is removed from `required`, so `required`
no longer contains it whenever it occurred at most once.  Meanwhile the
configured HTTP client carries the precomputed constant identity value
`createAppIdentifier` as its default `app_identifier` query parameter. -/
theorem C9_identity_stripping :
    (∀ (c : Component) (kvs props : List (String × Json)),
      strContains c.className "Tool" = true →
      c.parameters = some (.obj kvs) → kvs.isEmpty = false →
      lookupStr "properties" kvs = some (.obj props) →
      keysNodup props = true →
      ∃ props', propertiesOf (customizeComponent c) = some (.obj props')
        ∧ lookupStr "app_identifier" props' = none)
    ∧ (∀ (c : Component) (kvs : List (String × Json)) (req : List Json),
      strContains c.className "Tool" = true →
      c.parameters = some (.obj kvs) → kvs.isEmpty = false →
      (lookupStr "properties" kvs = none
        ∨ ∃ props, lookupStr "properties" kvs = some (.obj props)) →
      lookupStr "required" kvs = some (.arr req) →
      countStrElem req "app_identifier" ≤ 1 →
      ∃ req', requiredOf (customizeComponent c) = some (.arr req')
        ∧ jsonHasStrElem req' "app_identifier" = false)
    ∧ (∀ apiKey baseUrl appName appEmail : String,
      lookupAssoc "app_identifier"
          (createHttpClient apiKey baseUrl appName appEmail).params
        = some (createAppIdentifier appName appEmail)) := by
  refine ⟨?_, ?_, ?_⟩
  · intro c kvs props hTool hParams hNE hProps hnd
    obtain ⟨kvs₁, props', hstep, hlook, hnone⟩ := stripProperties_removes hProps hnd
    have hc0 : customizeComponent c
        = (match stripRequiredEntry kvs₁ with
           | .error _ => { c with parameters := some (.obj kvs₁) }
           | .ok kvs₂ => { c with parameters := some (.obj kvs₂) }) := by
      unfold customizeComponent
      rw [hTool, if_pos rfl, hParams]
      simp only [hNE, Bool.false_eq_true, if_false]
      rw [hstep]
    cases hr2 : stripRequiredEntry kvs₁ with
    | error e =>
      rw [hc0, hr2]
      exact ⟨props', hlook, hnone⟩
    | ok kvs₂ =>
      rw [hc0, hr2]
      refine ⟨props', ?_, hnone⟩
      show lookupStr "properties" kvs₂ = some (.obj props')
      rw [lookup_properties_stripRequired hr2]
      exact hlook
  · intro c kvs req hTool hParams hNE hPropsOk hReq hcount
    obtain ⟨kvs₁, hstep, hreq₁⟩ : ∃ kvs₁, stripPropertiesEntry kvs = .ok kvs₁
        ∧ lookupStr "required" kvs₁ = some (.arr req) := by
      rcases hPropsOk with hpnone | ⟨props, hobj⟩
      · refine ⟨kvs, ?_, hReq⟩
        unfold stripPropertiesEntry
        rw [hpnone]
      · have hform : stripPropertiesEntry kvs
            = (if (lookupStr "app_identifier" props).isSome = true then
              (Except.ok (objSet kvs "properties" (Json.obj (objDel props "app_identifier")))
                : Except Unit (List (String × Json)))
              else .ok kvs) := by
          unfold stripPropertiesEntry
          rw [hobj]
        by_cases hAI : (lookupStr "app_identifier" props).isSome = true
        · refine ⟨objSet kvs "properties" (.obj (objDel props "app_identifier")), ?_, ?_⟩
          · rw [hform, if_pos hAI]
          · rw [lookupStr_objSet_other _ _ (by decide : "required" ≠ "properties")]
            exact hReq
        · refine ⟨kvs, ?_, hReq⟩
          rw [hform, if_neg hAI]
    obtain ⟨l', req', hstep₂, hlook₂, hfree⟩ := stripRequired_removes hreq₁ hcount
    have hc0 : customizeComponent c
        = (match stripRequiredEntry kvs₁ with
           | .error _ => { c with parameters := some (.obj kvs₁) }
           | .ok kvs₂ => { c with parameters := some (.obj kvs₂) }) := by
      unfold customizeComponent
      rw [hTool, if_pos rfl, hParams]
      simp only [hNE, Bool.false_eq_true, if_false]
      rw [hstep]
    rw [hc0, hstep₂]
    refine ⟨req', ?_, hfree⟩
    show lookupStr "required" l' = some (.arr req')
    exact hlook₂
  · intro apiKey baseUrl appName appEmail
    rfl

/-- A well-formed tool component advertising `app_identifier` once in
`properties` and once in `required`. -/
def componentC9w : Component :=
  { className := "OpenAPITool", name := "tool",
    parameters := some (.obj
      [("properties", .obj [("app_identifier", .obj []), ("x", .obj [])]),
       ("required", .arr [.str "app_identifier", .str "x"])]) }

/-- C9 witness: on `componentC9w` the `app_identifier` property is removed,
and the configured client default query parameters carry the precomputed
identity value. -/
theorem C9_identity_stripping_witness :
    (∃ props', propertiesOf (customizeComponent componentC9w) = some (.obj props')
      ∧ lookupStr "app_identifier" props' = none)
    ∧ lookupAssoc "app_identifier"
        (createHttpClient "key" "https://hapi.humdata.org/api/v2"
          "hdx-mcp-server" "assistant@example.com").params
      = some (createAppIdentifier "hdx-mcp-server" "assistant@example.com") :=
  ⟨C9_identity_stripping.1 componentC9w
      [("properties", .obj [("app_identifier", .obj []), ("x", .obj [])]),
       ("required", .arr [.str "app_identifier", .str "x"])]
      [("app_identifier", .obj []), ("x", .obj [])]
      (by decide) rfl rfl rfl (by decide),
   C9_identity_stripping.2.2 "key" "https://hapi.humdata.org/api/v2"
      "hdx-mcp-server" "assistant@example.com"⟩

/-! ### Custom tools (`tools/hdx_tools.py`, `search_locations` and
`get_dataset_info`) -/

/-- An upstream HTTP response: status code and parsed JSON body.  The
transport argument of the tool models `_rate_limited_request`: an exception
(timeout, connection error) is `Except.error`. -/
structure HttpResponse where
  status : Nat
  body : Json
deriving Repr

/-- `httpx.Response.raise_for_status` raises unless the status is a 2xx
success code. -/
def statusOk (r : HttpResponse) : Bool := 200 ≤ r.status && r.status < 300

/-- Query parameters built by `search_locations`: `name` only for a truthy
(non-empty) pattern, `has_hrp` as `str(has_hrp).lower()` when supplied. -/
def buildSearchParams (namePattern : Option String) (hasHrp : Option Bool) :
    List (String × String) :=
  (match namePattern with
   | some s => if s.isEmpty then [] else [("name", s)]
   | none => []) ++
  (match hasHrp with
   | some b => [("has_hrp", if b then "true" else "false")]
   | none => [])

/-- Python `None` becomes JSON null; a string stays a string. -/
def optStrJson : Option String → Json
  | some s => .str s
  | none => .null

/-- Python `None` becomes JSON null; a bool stays a bool. -/
def optBoolJson : Option Bool → Json
  | some b => .bool b
  | none => .null

/-- The `filters_applied` mapping echoing the caller-supplied arguments. -/
def searchFiltersApplied (np : Option String) (hh : Option Bool) : Json :=
  .obj [("name_pattern", optStrJson np), ("has_hrp", optBoolJson hh)]

/-- The uniform error envelope of `search_locations`. -/
def searchLocationsErrorEnvelope (np : Option String) (hh : Option Bool) : Json :=
  .obj [("error", .str "Failed to search locations"),
        ("filters_applied", searchFiltersApplied np hh)]

/-- Python `len()` on a JSON value: arrays, strings and dicts have a
length; `len` raises on anything else. -/
def jsonLen : Json → Option Nat
  | .arr items => some items.length
  | .str s => some s.length
  | .obj kvs => some kvs.length
  | _ => none

/-- The `try` block of `search_locations`: request, `raise_for_status`,
`data.get("data", [])` (an `AttributeError` for a non-dict body), and the
success envelope with `count = len(...)`. -/
def searchLocationsTry (np : Option String) (hh : Option Bool)
    (transport : List (String × String) → Except Unit HttpResponse) :
    Except Unit Json :=
  match transport (buildSearchParams np hh) with
  | .error e => .error e
  | .ok resp =>
    if statusOk resp then
      match resp.body with
      | .obj kvs =>
        let locations := (lookupStr "data" kvs).getD (.arr [])
        match jsonLen locations with
        | some n =>
          .ok (.obj [("status", .str "success"), ("locations", locations),
            ("count", .num n), ("filters_applied", searchFiltersApplied np hh)])
        | none => .error ()
      | _ => .error ()
    else .error ()

/-- `search_locations`: any exception from the `try` block is caught and
turned into the uniform error envelope. -/
def searchLocations (np : Option String) (hh : Option Bool)
    (transport : List (String × String) → Except Unit HttpResponse) : Json :=
  match searchLocationsTry np hh transport with
  | .ok j => j
  | .error _ => searchLocationsErrorEnvelope np hh

/-- C8: the location-search tool never propagates a transport failure — it
is a total function into JSON — and whenever the upstream call raises
(transport exception, or `raise_for_status` on a non-2xx response) it
returns the structured error envelope, which carries the `error` message
and a `filters_applied` mapping echoing the caller-supplied filters. -/
theorem C8_search_locations_failure_isolation (np : Option String) (hh : Option Bool)
    (transport : List (String × String) → Except Unit HttpResponse) :
    (transport (buildSearchParams np hh) = .error () →
      searchLocations np hh transport = searchLocationsErrorEnvelope np hh)
    ∧ (∀ r, transport (buildSearchParams np hh) = .ok r → statusOk r = false →
      searchLocations np hh transport = searchLocationsErrorEnvelope np hh)
    ∧ (∃ kvs, searchLocationsErrorEnvelope np hh = .obj kvs
      ∧ lookupStr "error" kvs = some (.str "Failed to search locations")
      ∧ lookupStr "filters_applied" kvs = some (searchFiltersApplied np hh)) := by
  refine ⟨?_, ?_, ?_⟩
  · intro h
    simp only [searchLocations, searchLocationsTry, h]
  · intro r h hstatus
    simp only [searchLocations, searchLocationsTry, h, hstatus, Bool.false_eq_true,
      if_false]
  · exact ⟨_, rfl, rfl, rfl⟩

/-- C8 witness: a transport that raises produces exactly the error envelope
echoing the filters. -/
theorem C8_search_locations_failure_isolation_witness :
    searchLocations (some "Mali") (some true) (fun _ => .error ())
      = searchLocationsErrorEnvelope (some "Mali") (some true) :=
  (C8_search_locations_failure_isolation (some "Mali") (some true)
    (fun _ => .error ())).1 rfl

/-- The `Dataset not found` envelope of `get_dataset_info` (no `status`
field). -/
def getDatasetInfoNotFound (id : String) : Json :=
  .obj [("error", .str "Dataset not found"), ("dataset_hdx_id", .str id)]

/-- The exception envelope of `get_dataset_info`. -/
def getDatasetInfoFailed (id : String) : Json :=
  .obj [("error", .str "Failed to fetch dataset information"),
        ("dataset_hdx_id", .str id)]

/-- Python `x[0]`: the first element of a list; the first character of a
string (as a one-character string); a `TypeError`/`KeyError` on anything
else (including a dict, whose keys here are strings, and an empty
list/string, an `IndexError`). -/
def jsonIndex0 : Json → Except Unit Json
  | .arr (x :: _) => .ok x
  | .str s =>
    (match s.data with
     | c :: _ => .ok (.str (String.mk [c]))
     | [] => .error ())
  | _ => .error ()

/-- The `try` block of `get_dataset_info`: request, `raise_for_status`,
the `if not data.get("data")` falsiness test, and the success envelope with
`data["data"][0]`. -/
def getDatasetInfoTry (id : String)
    (transport : List (String × String) → Except Unit HttpResponse) :
    Except Unit Json :=
  match transport [("dataset_hdx_id", id)] with
  | .error e => .error e
  | .ok resp =>
    if statusOk resp then
      match resp.body with
      | .obj kvs =>
        let dataVal := (lookupStr "data" kvs).getD .null
        if jsonTruthy dataVal then
          match jsonIndex0 dataVal with
          | .ok first =>
            .ok (.obj [("status", .str "success"), ("dataset", first),
              ("dataset_hdx_id", .str id)])
          | .error e => .error e
        else .ok (getDatasetInfoNotFound id)
      | _ => .error ()
    else .error ()

/-- `get_dataset_info`: any exception from the `try` block is caught and
turned into the fetch-failure envelope. -/
def getDatasetInfo (id : String)
    (transport : List (String × String) → Except Unit HttpResponse) : Json :=
  match getDatasetInfoTry id transport with
  | .ok j => j
  | .error _ => getDatasetInfoFailed id

/-- A transport whose successful response carries a non-empty "data" field
that is a string, not a list. -/
def transportC10 : List (String × String) → Except Unit HttpResponse :=
  fun _ => .ok { status := 200, body := .obj [("data", .str "ab")] }

/-- C10 counterexample: the upstream call succeeds and the response's
`data` field is the non-empty string `"ab"` — not a list — yet the tool
returns a success envelope (with the first character as the payload),
contradicting the claim that only a non-empty list yields
`{"status": "success"}`. -/
theorem C10_counterexample :
    transportC10 [("dataset_hdx_id", "DS1")]
        = .ok { status := 200, body := .obj [("data", .str "ab")] }
      ∧ getDatasetInfo "DS1" transportC10
        = .obj [("status", .str "success"), ("dataset", .str "a"),
            ("dataset_hdx_id", .str "DS1")] :=
  ⟨rfl, rfl⟩

/-- C10 (amended): on a successful upstream call with a dict body, a falsy
or absent `data` field yields the `Dataset not found` envelope, which has
no `status` field; a non-empty list yields the success envelope carrying
the first element; a non-empty string also yields the success envelope,
carrying the first character; any other truthy `data` value makes the
indexing raise, and the generic fetch-failure envelope is returned. -/
theorem C10_dataset_info_envelope (id : String)
    (transport : List (String × String) → Except Unit HttpResponse)
    (r : HttpResponse) (kvs : List (String × Json))
    (htr : transport [("dataset_hdx_id", id)] = .ok r)
    (hst : statusOk r = true) (hbody : r.body = .obj kvs) :
    (jsonTruthy ((lookupStr "data" kvs).getD .null) = false →
      getDatasetInfo id transport = getDatasetInfoNotFound id
        ∧ lookupStr "status" [("error", Json.str "Dataset not found"),
            ("dataset_hdx_id", Json.str id)] = none)
    ∧ (∀ (x : Json) (xs : List Json), lookupStr "data" kvs = some (.arr (x :: xs)) →
      getDatasetInfo id transport
        = .obj [("status", .str "success"), ("dataset", x), ("dataset_hdx_id", .str id)])
    ∧ (∀ (c : Char) (cs : List Char),
      lookupStr "data" kvs = some (.str (String.mk (c :: cs))) →
      getDatasetInfo id transport
        = .obj [("status", .str "success"), ("dataset", .str (String.mk [c])),
            ("dataset_hdx_id", .str id)])
    ∧ (jsonTruthy ((lookupStr "data" kvs).getD .null) = true →
      jsonIndex0 ((lookupStr "data" kvs).getD .null) = .error () →
      getDatasetInfo id transport = getDatasetInfoFailed id) := by
  refine ⟨?_, ?_, ?_, ?_⟩
  · intro hfalsy
    refine ⟨?_, rfl⟩
    simp only [getDatasetInfo, getDatasetInfoTry, htr, hst, if_true, hbody, hfalsy,
      Bool.false_eq_true, if_false]
  · intro x xs hdata
    simp only [getDatasetInfo, getDatasetInfoTry, htr, hst, if_true, hbody, hdata,
      Option.getD_some, jsonTruthy, List.isEmpty_cons, Bool.not_false, if_true,
      jsonIndex0]
  · intro c cs hdata
    simp only [getDatasetInfo, getDatasetInfoTry, htr, hst, if_true, hbody, hdata,
      Option.getD_some, jsonTruthy, List.isEmpty_cons, Bool.not_false, if_true,
      jsonIndex0]
  · intro htruthy herr
    simp only [getDatasetInfo, getDatasetInfoTry, htr, hst, if_true, hbody, htruthy,
      if_true, herr]

/-- Transport for the C10 witness: a dict body whose `data` field is a
non-empty list. -/
def transportC10w : List (String × String) → Except Unit HttpResponse :=
  fun _ => .ok
    { status := 200, body := .obj [("data", .arr [.obj [("dataset_hdx_id", .str "DS2")]])] }

/-- C10 witness: a non-empty `data` list yields the success envelope with
the first element as the payload. -/
theorem C10_dataset_info_envelope_witness :
    getDatasetInfo "DS2" transportC10w
      = .obj [("status", .str "success"),
          ("dataset", .obj [("dataset_hdx_id", .str "DS2")]),
          ("dataset_hdx_id", .str "DS2")] :=
  (C10_dataset_info_envelope "DS2" transportC10w
      { status := 200, body := .obj [("data", .arr [.obj [("dataset_hdx_id", .str "DS2")]])] }
      [("data", .arr [.obj [("dataset_hdx_id", .str "DS2")]])]
      rfl rfl rfl).2.1
    (.obj [("dataset_hdx_id", .str "DS2")]) [] rfl

end HdxMcp
